import Mathlib

/-!
Shallow embedding of the calendar event codec in `src/mod.ts` of obra/jmap-mcp
(the iCalendar create / parse / update functions `createICalString`,
`parseICalEvent`, `updateICalString` and their helpers, source lines 135-944
of the calendar module).

The code manipulates iCalendar documents through the external `ical.js`
library's component tree (`ICAL.Component` / `ICAL.Property` / `ICAL.Time` /
`ICAL.Recur`).  The embedding works at that tree level: a document is an
`ICalComponent`; the text rendering `ICAL.Component.toString` and the text
parser `ICAL.parse` are treated as a faithful inverse pair, so every claim
about the serialized document is stated on the tree.  The tree operations
(`updatePropertyWithValue`, `removeProperty`, ...) are modelled with the
standard jCal semantics: properties are an ordered list, `updatePropertyWithValue`
replaces the value of the first property of that name (keeping its parameters)
or appends a fresh property, `removeProperty` removes the first property of
that name, `addProperty` / `addSubcomponent` append.

Impure inputs of the source (`generateEventUid()`, `ICAL.Time.now()`) are
passed as explicit arguments `uid` / `now`.
-/

namespace JmapCal

/-- A JS `Date`, viewed as the wall-clock fields the codec passes through.
`ICAL.Time.fromJSDate(d, false)` / `toJSDate()` are modelled as inverse
pass-throughs of these fields; the codec performs no timezone conversion
(spec §4.2 step 3). -/
structure JSDate where
  year : Nat
  month : Nat
  day : Nat
  hour : Nat
  minute : Nat
  second : Nat
  deriving Repr, DecidableEq

/-- Model of `ICAL.Time`: wall-clock fields plus the `isDate` (date-only) flag. -/
structure ICalTime where
  year : Nat
  month : Nat
  day : Nat
  hour : Nat
  minute : Nat
  second : Nat
  isDate : Bool
  deriving Repr, DecidableEq

/-- Operation `ICAL.Time.fromJSDate(d, false)`: a date-time value with the same fields. -/
def ICalTime.fromJSDate (d : JSDate) : ICalTime :=
  ⟨d.year, d.month, d.day, d.hour, d.minute, d.second, false⟩

/-- Assignment `t.isDate = b` on an `ICAL.Time`.  A date-only value carries no
time of day in the serialized document, so setting the flag to `true` is
modelled as also zeroing the clock fields (observationally equivalent at the
document level, where a `VALUE=DATE` token is rendered as `YYYYMMDD`). -/
def ICalTime.setIsDate (t : ICalTime) (b : Bool) : ICalTime :=
  if b then ⟨t.year, t.month, t.day, 0, 0, 0, true⟩ else { t with isDate := false }

/-- Operation `ICAL.Time.toJSDate()`: date-only values come back at midnight. -/
def ICalTime.toJSDate (t : ICalTime) : JSDate :=
  if t.isDate then ⟨t.year, t.month, t.day, 0, 0, 0⟩
  else ⟨t.year, t.month, t.day, t.hour, t.minute, t.second⟩

/-- Model of `ICAL.Recur` data as stored on the `RRULE` property: `freq`, `interval`,
optional `count` / `until`, and the `BYDAY` part (`setComponent("byday", ...)`). -/
structure RecurData where
  freq : String
  interval : Nat
  count : Option Nat
  «until» : Option ICalTime
  byday : List String
  deriving Repr, DecidableEq

/-- A jCal property value as used by the codec: strings, integers
(`PRIORITY`), times, durations (kept as their canonical string, the form
`ICAL.Duration.fromString` receives), and recurrence rules. -/
inductive PropValue where
  | str (s : String)
  | int (n : Nat)
  | time (t : ICalTime)
  | dur (d : String)
  | recur (r : RecurData)
  deriving Repr, DecidableEq

/-- An `ICAL.Property`: name, ordered parameter list, optional value. -/
structure ICalProp where
  name : String
  params : List (String × String)
  value : Option PropValue
  deriving Repr, DecidableEq

/-- Operation `ICAL.Property.setParameter`: replace an existing parameter of that key or
append a new one. -/
def ICalProp.setParameter (p : ICalProp) (k v : String) : ICalProp :=
  if p.params.any (fun q => q.1 == k) then
    { p with params := p.params.map (fun q => if q.1 == k then (k, v) else q) }
  else
    { p with params := p.params ++ [(k, v)] }

/-- Operation `ICAL.Property.getParameter`. -/
def ICalProp.getParameter (p : ICalProp) (k : String) : Option String :=
  (p.params.find? (fun q => q.1 == k)).map (fun q => q.2)

/-- An `ICAL.Component`: name, ordered property list, ordered subcomponents. -/
inductive ICalComponent where
  | mk (name : String) (props : List ICalProp) (subs : List ICalComponent)
  deriving Repr

def ICalComponent.name : ICalComponent → String
  | .mk n _ _ => n

def ICalComponent.props : ICalComponent → List ICalProp
  | .mk _ ps _ => ps

def ICalComponent.subs : ICalComponent → List ICalComponent
  | .mk _ _ ss => ss

@[simp] theorem ICalComponent.name_mk (n : String) (ps : List ICalProp)
    (ss : List ICalComponent) : (ICalComponent.mk n ps ss).name = n := rfl

@[simp] theorem ICalComponent.props_mk (n : String) (ps : List ICalProp)
    (ss : List ICalComponent) : (ICalComponent.mk n ps ss).props = ps := rfl

@[simp] theorem ICalComponent.subs_mk (n : String) (ps : List ICalProp)
    (ss : List ICalComponent) : (ICalComponent.mk n ps ss).subs = ss := rfl

/-- Operation `ICAL.Component.getFirstProperty(name)`. -/
def ICalComponent.getFirstProp? (c : ICalComponent) (nm : String) : Option ICalProp :=
  c.props.find? (fun p => p.name == nm)

/-- Operation `ICAL.Component.getFirstPropertyValue(name)`. -/
def ICalComponent.getFirstPropertyValue (c : ICalComponent) (nm : String) : Option PropValue :=
  (c.getFirstProp? nm).bind (fun p => p.value)

/-- Operation `ICAL.Component.getAllProperties(name)`. -/
def ICalComponent.getAllProperties (c : ICalComponent) (nm : String) : List ICalProp :=
  c.props.filter (fun p => p.name == nm)

/-- Whether a property of this name exists (the branch test inside
`updatePropertyWithValue`). -/
def ICalComponent.hasProp (c : ICalComponent) (nm : String) : Bool :=
  c.props.any (fun p => p.name == nm)

/-- Operation `ICAL.Component.addProperty`: append. -/
def ICalComponent.addProperty (c : ICalComponent) (p : ICalProp) : ICalComponent :=
  .mk c.name (c.props ++ [p]) c.subs

/-- Replace the value of the first property of the given name (parameters kept). -/
def setFirstPropValue : List ICalProp → String → PropValue → List ICalProp
  | [], _, _ => []
  | p :: ps, nm, v =>
    if p.name == nm then { p with value := some v } :: ps
    else p :: setFirstPropValue ps nm v

/-- Operation `ICAL.Component.updatePropertyWithValue(name, value)`: set the value of
the first property of that name if present, else append a fresh property. -/
def ICalComponent.updatePropertyWithValue (c : ICalComponent) (nm : String)
    (v : PropValue) : ICalComponent :=
  if c.hasProp nm then .mk c.name (setFirstPropValue c.props nm v) c.subs
  else c.addProperty ⟨nm, [], some v⟩

/-- Remove the first property of the given name. -/
def removeFirstProp : List ICalProp → String → List ICalProp
  | [], _ => []
  | p :: ps, nm => if p.name == nm then ps else p :: removeFirstProp ps nm

/-- Operation `ICAL.Component.removeProperty(name)`: removes the first property of that
name. -/
def ICalComponent.removeProperty (c : ICalComponent) (nm : String) : ICalComponent :=
  .mk c.name (removeFirstProp c.props nm) c.subs

/-- Operation `ICAL.Component.removeAllProperties(name)`. -/
def ICalComponent.removeAllProperties (c : ICalComponent) (nm : String) : ICalComponent :=
  .mk c.name (c.props.filter (fun p => !(p.name == nm))) c.subs

/-- Operation `ICAL.Component.addSubcomponent`: append. -/
def ICalComponent.addSubcomponent (c : ICalComponent) (s : ICalComponent) : ICalComponent :=
  .mk c.name c.props (c.subs ++ [s])

/-- Operation `ICAL.Component.getFirstSubcomponent(name)`. -/
def ICalComponent.getFirstSubcomponent (c : ICalComponent) (nm : String) :
    Option ICalComponent :=
  c.subs.find? (fun s => s.name == nm)

/-- Operation `ICAL.Component.getAllSubcomponents(name)`. -/
def ICalComponent.getAllSubcomponents (c : ICalComponent) (nm : String) :
    List ICalComponent :=
  c.subs.filter (fun s => s.name == nm)

/-- Net effect of the loop `for (const alarm of getAllSubcomponents("valarm"))
{ removeSubcomponent(alarm) }` (source lines 843-846): every subcomponent of
that name is removed. -/
def ICalComponent.removeSubcomponentsNamed (c : ICalComponent) (nm : String) :
    ICalComponent :=
  .mk c.name c.props (c.subs.filter (fun s => !(s.name == nm)))

/-- Map the value of the first property of the given name in place (models
`prop.getFirstValue()` followed by mutation and `prop.setValue`). -/
def mapFirstPropValue : List ICalProp → String → (PropValue → PropValue) → List ICalProp
  | [], _, _ => []
  | p :: ps, nm, f =>
    if p.name == nm then { p with value := p.value.map f } :: ps
    else p :: mapFirstPropValue ps nm f

/-- Replace the first subcomponent of the given name (the in-place mutation of
the `vevent` inside its parent `vcalendar`). -/
def replaceFirstSub : List ICalComponent → String → ICalComponent → List ICalComponent
  | [], _, _ => []
  | c :: cs, nm, c' => if c.name == nm then c' :: cs else c :: replaceFirstSub cs nm c'

/-! ### JS truthiness helpers -/

/-- JS truthiness of an optional number (`0` and absent are both falsy). -/
def truthyNat : Option Nat → Bool
  | some n => n != 0
  | none => false

/-- JS truthiness of an optional string (`""` and absent are both falsy). -/
def truthyStr : Option String → Bool
  | some s => s != ""
  | none => false

/-- JS `s.toUpperCase()` for the ASCII strings this codec handles, defined as
a structural character map (extensionally `String.toUpper`, whose
position-based recursion does not reduce definitionally). -/
def jsToUpper (s : String) : String := ⟨s.data.map Char.toUpper⟩

/-- JS `s.toLowerCase()`, structurally. -/
def jsToLower (s : String) : String := ⟨s.data.map Char.toLower⟩

/-! ### Input record types (source lines 439-479, 677-694) -/

/-- Record `RecurrenceParams` (source lines 439-445). -/
structure RecurrenceParams where
  frequency : String
  interval : Option Nat
  count : Option Nat
  «until» : Option JSDate
  byDay : Option (List String)
  deriving Repr, DecidableEq

/-- Record `AttendeeInput` (source lines 447-452). -/
structure AttendeeInput where
  email : String
  name : Option String
  rsvp : Option Bool
  role : Option String
  deriving Repr, DecidableEq

/-- Record `ReminderInput` (source lines 454-459). -/
structure ReminderInput where
  minutes : Option Nat
  hours : Option Nat
  days : Option Nat
  action : Option String
  deriving Repr, DecidableEq

/-- Shape of the `organizer` argument `{ email: string; name?: string }`. -/
structure Organizer where
  email : String
  name : Option String
  deriving Repr, DecidableEq

/-- Record `CreateEventParams` (source lines 461-479). -/
structure CreateEventParams where
  summary : String
  start : JSDate
  «end» : Option JSDate
  allDay : Option Bool
  location : Option String
  description : Option String
  recurrence : Option RecurrenceParams
  attendees : Option (List AttendeeInput)
  organizer : Option Organizer
  status : Option String
  url : Option String
  categories : Option (List String)
  priority : Option Nat
  transparency : Option String
  reminders : Option (List ReminderInput)
  deriving Repr, DecidableEq

/-- Record `UpdateEventParams` (source lines 677-694).  `priority` is
`number | null`, so it is doubly optional: `some none` is an explicit `null`
(clear), `some (some n)` sets, `none` is absent. -/
structure UpdateEventParams where
  summary : Option String
  start : Option JSDate
  «end» : Option JSDate
  allDay : Option Bool
  location : Option String
  description : Option String
  attendees : Option (List AttendeeInput)
  organizer : Option Organizer
  status : Option String
  url : Option String
  categories : Option (List String)
  priority : Option (Option Nat)
  transparency : Option String
  reminders : Option (List ReminderInput)
  deriving Repr, DecidableEq

/-! ### Small helpers of the source -/

/-- Helper `roleToICalRole` (source lines 493-501). -/
def roleToICalRole (role : String) : String :=
  if role == "required" then "REQ-PARTICIPANT"
  else if role == "optional" then "OPT-PARTICIPANT"
  else if role == "non-participant" then "NON-PARTICIPANT"
  else if role == "chair" then "CHAIR"
  else "REQ-PARTICIPANT"

/-- Helper `reminderToDuration` (source lines 506-517): JS truthiness tests in the
order `days`, then `hours`, then `minutes`, defaulting to 15 minutes. -/
def reminderToDuration (r : ReminderInput) : String :=
  if truthyNat r.days then "-P" ++ toString (r.days.getD 0) ++ "D"
  else if truthyNat r.hours then "-PT" ++ toString (r.hours.getD 0) ++ "H"
  else if truthyNat r.minutes then "-PT" ++ toString (r.minutes.getD 0) ++ "M"
  else "-PT15M"

/-! ### Builders used by `createICalString` / `updateICalString` -/

/-- Builder for the ORGANIZER property (source lines 588-594, repeated at
812-817): value `mailto:<email>`, `CN` parameter when a (truthy) name is
given. -/
def mkOrganizerProp (o : Organizer) : ICalProp :=
  let prop : ICalProp := { name := "organizer", params := [], value := none }
  let prop := { prop with value := some (.str ("mailto:" ++ o.email)) }
  if truthyStr o.name then prop.setParameter "cn" (o.name.getD "") else prop

/-- Builder for one ATTENDEE property (source lines 600-613, repeated at
826-836): value `mailto:<email>`, optional `CN`, `RSVP` defaulting to TRUE
unless `rsvp` is explicitly `false`, fixed `PARTSTAT=NEEDS-ACTION`, and a
`ROLE` parameter when a role is given. -/
def mkAttendeeProp (a : AttendeeInput) : ICalProp :=
  let prop : ICalProp := { name := "attendee", params := [], value := none }
  let prop := { prop with value := some (.str ("mailto:" ++ a.email)) }
  let prop := if truthyStr a.name then prop.setParameter "cn" (a.name.getD "") else prop
  let prop := prop.setParameter "rsvp" (if a.rsvp != some false then "TRUE" else "FALSE")
  let prop := prop.setParameter "partstat" "NEEDS-ACTION"
  if truthyStr a.role then prop.setParameter "role" (roleToICalRole (a.role.getD "")) else prop

/-- Builder for one VALARM subcomponent (source lines 620-634, repeated at
850-859): ACTION (defaulting to DISPLAY via the nullish `?? "display"`),
a TRIGGER carrying the duration from `reminderToDuration`, and a DESCRIPTION
copied from the event summary for display actions (`!reminder.action ||
reminder.action === "display"`). -/
def mkValarm (summary : String) (r : ReminderInput) : ICalComponent :=
  let valarm : ICalComponent := .mk "valarm" [] []
  let valarm := valarm.updatePropertyWithValue "action" (.str (jsToUpper (r.action.getD "display")))
  let triggerProp : ICalProp := { name := "trigger", params := [], value := some (.dur (reminderToDuration r)) }
  let valarm := valarm.addProperty triggerProp
  if !truthyStr r.action || r.action == some "display" then
    valarm.updatePropertyWithValue "description" (.str summary)
  else valarm

/-- Builder for the `ICAL.Recur` stored on RRULE (source lines 640-653):
uppercased frequency, `interval || 1`, `count` / `until` / `byday` each set
only when (truthily) present. -/
def buildRRule (rp : RecurrenceParams) : RecurData :=
  let rrule : RecurData :=
    { freq := jsToUpper rp.frequency
      interval := if truthyNat rp.interval then rp.interval.getD 0 else 1
      count := none
      «until» := none
      byday := [] }
  let rrule := if truthyNat rp.count then { rrule with count := some (rp.count.getD 0) } else rrule
  let rrule :=
    match rp.«until» with
    | some u => { rrule with «until» := some (ICalTime.fromJSDate u) }
    | none => rrule
  match rp.byDay with
  | some ds => if ds.length > 0 then { rrule with byday := ds.map jsToUpper } else rrule
  | none => rrule

/-! ### `createICalString` (source lines 522-664), split into its blocks -/

/-- Start time of a creation request (source lines 539-542): `fromJSDate`,
then `isDate` forced when `allDay` is truthy. -/
def createStartTime (p : CreateEventParams) : ICalTime :=
  let t := ICalTime.fromJSDate p.start
  if p.allDay.getD false then t.setIsDate true else t

/-- End time of a creation request (source lines 547-550). -/
def createEndTime (p : CreateEventParams) (e : JSDate) : ICalTime :=
  let t := ICalTime.fromJSDate e
  if p.allDay.getD false then t.setIsDate true else t

/-- Base VEVENT of a creation (source lines 533-543): UID, DTSTAMP, SUMMARY,
DTSTART. -/
def createBaseVevent (p : CreateEventParams) (uid : String) (now : ICalTime) : ICalComponent :=
  let vevent : ICalComponent := .mk "vevent" [] []
  let vevent := vevent.updatePropertyWithValue "uid" (.str uid)
  let vevent := vevent.updatePropertyWithValue "dtstamp" (.time now)
  let vevent := vevent.updatePropertyWithValue "summary" (.str p.summary)
  vevent.updatePropertyWithValue "dtstart" (.time (createStartTime p))

/-- Block `if (params.end) { ... }` (source lines 546-552). -/
def createAddEnd (p : CreateEventParams) (v : ICalComponent) : ICalComponent :=
  match p.«end» with
  | some e => v.updatePropertyWithValue "dtend" (.time (createEndTime p e))
  | none => v

/-- Block `if (params.location) { ... }` (source lines 555-557). -/
def createAddLocation (p : CreateEventParams) (v : ICalComponent) : ICalComponent :=
  if truthyStr p.location then
    v.updatePropertyWithValue "location" (.str (p.location.getD ""))
  else v

/-- Block `if (params.description) { ... }` (source lines 558-560). -/
def createAddDescription (p : CreateEventParams) (v : ICalComponent) : ICalComponent :=
  if truthyStr p.description then
    v.updatePropertyWithValue "description" (.str (p.description.getD ""))
  else v

/-- Block `if (params.status) { ... }` (source lines 563-565). -/
def createAddStatus (p : CreateEventParams) (v : ICalComponent) : ICalComponent :=
  if truthyStr p.status then
    v.updatePropertyWithValue "status" (.str (jsToUpper (p.status.getD "")))
  else v

/-- Block `if (params.url) { ... }` (source lines 568-570). -/
def createAddUrl (p : CreateEventParams) (v : ICalComponent) : ICalComponent :=
  if truthyStr p.url then
    v.updatePropertyWithValue "url" (.str (p.url.getD ""))
  else v

/-- Block `if (params.categories && params.categories.length > 0)` (source
lines 573-575). -/
def createAddCategories (p : CreateEventParams) (v : ICalComponent) : ICalComponent :=
  match p.categories with
  | some cats =>
    if cats.length > 0 then
      v.updatePropertyWithValue "categories" (.str (String.intercalate "," cats))
    else v
  | none => v

/-- Block for PRIORITY, only when in 1-9 (source lines 578-580). -/
def createAddPriority (p : CreateEventParams) (v : ICalComponent) : ICalComponent :=
  match p.priority with
  | some n => if 1 ≤ n ∧ n ≤ 9 then v.updatePropertyWithValue "priority" (.int n) else v
  | none => v

/-- Block `if (params.transparency) { ... }` (source lines 583-585). -/
def createAddTransparency (p : CreateEventParams) (v : ICalComponent) : ICalComponent :=
  if truthyStr p.transparency then
    v.updatePropertyWithValue "transp" (.str (jsToUpper (p.transparency.getD "")))
  else v

/-- Block `if (params.organizer) { ... }` (source lines 588-595). -/
def createAddOrganizer (p : CreateEventParams) (v : ICalComponent) : ICalComponent :=
  match p.organizer with
  | some o => v.addProperty (mkOrganizerProp o)
  | none => v

/-- Block `if (params.attendees && params.attendees.length > 0)` (source
lines 598-615): one ATTENDEE property appended per entry. -/
def createAddAttendees (p : CreateEventParams) (v : ICalComponent) : ICalComponent :=
  match p.attendees with
  | some atts =>
    if atts.length > 0 then
      atts.foldl (fun acc a => acc.addProperty (mkAttendeeProp a)) v
    else v
  | none => v

/-- Block `if (params.reminders && params.reminders.length > 0)` (source
lines 618-636): one VALARM subcomponent appended per reminder. -/
def createAddValarms (p : CreateEventParams) (v : ICalComponent) : ICalComponent :=
  match p.reminders with
  | some rs =>
    if rs.length > 0 then
      rs.foldl (fun acc r => acc.addSubcomponent (mkValarm p.summary r)) v
    else v
  | none => v

/-- Block `if (params.recurrence) { ... }` (source lines 639-656). -/
def createAddRRule (p : CreateEventParams) (v : ICalComponent) : ICalComponent :=
  match p.recurrence with
  | some rp => v.updatePropertyWithValue "rrule" (.recur (buildRRule rp))
  | none => v

/-- The VEVENT built by `createICalString`, blocks composed in source order
(lines 533-656). -/
def createVevent (p : CreateEventParams) (uid : String) (now : ICalTime) : ICalComponent :=
  createAddRRule p (createAddValarms p (createAddAttendees p (createAddOrganizer p
    (createAddTransparency p (createAddPriority p (createAddCategories p
      (createAddUrl p (createAddStatus p (createAddDescription p
        (createAddLocation p (createAddEnd p (createBaseVevent p uid now))))))))))))

/-- Function `createICalString` (source lines 522-664).  The impure
`generateEventUid()` result and `ICAL.Time.now()` are passed in as `uid` and
`now`.  Note line 530: `METHOD:REQUEST` is written unconditionally on the
VCALENDAR envelope. -/
def createICalString (p : CreateEventParams) (uid : String) (now : ICalTime) :
    ICalComponent × String :=
  let vcalendar : ICalComponent := .mk "vcalendar" [] []
  let vcalendar := vcalendar.updatePropertyWithValue "version" (.str "2.0")
  let vcalendar := vcalendar.updatePropertyWithValue "prodid" (.str "-//Fastmail Aibo//EN")
  let vcalendar := vcalendar.updatePropertyWithValue "method" (.str "REQUEST")
  (vcalendar.addSubcomponent (createVevent p uid now), uid)

/-- Function `generateICalFilename` (source lines 669-671). -/
def generateICalFilename (uid : String) : String := uid ++ ".ics"

/-! ### Normal form of the created VEVENT

Each `createAddX` block appends a (possibly empty) segment of properties to
the event; the segments below spell those contributions out, and
`createVevent_eq` proves the block composition equal to the segment
concatenation. -/

/-- Properties contributed by the DTEND block (source lines 546-552). -/
def segEnd (p : CreateEventParams) : List ICalProp :=
  match p.«end» with
  | some e => [⟨"dtend", [], some (.time (createEndTime p e))⟩]
  | none => []

/-- Properties contributed by the LOCATION block (source lines 555-557). -/
def segLocation (p : CreateEventParams) : List ICalProp :=
  if truthyStr p.location then [⟨"location", [], some (.str (p.location.getD ""))⟩] else []

/-- Properties contributed by the DESCRIPTION block (source lines 558-560). -/
def segDescription (p : CreateEventParams) : List ICalProp :=
  if truthyStr p.description then [⟨"description", [], some (.str (p.description.getD ""))⟩] else []

/-- Properties contributed by the STATUS block (source lines 563-565). -/
def segStatus (p : CreateEventParams) : List ICalProp :=
  if truthyStr p.status then [⟨"status", [], some (.str (jsToUpper (p.status.getD "")))⟩] else []

/-- Properties contributed by the URL block (source lines 568-570). -/
def segUrl (p : CreateEventParams) : List ICalProp :=
  if truthyStr p.url then [⟨"url", [], some (.str (p.url.getD ""))⟩] else []

/-- Properties contributed by the CATEGORIES block (source lines 573-575). -/
def segCategories (p : CreateEventParams) : List ICalProp :=
  match p.categories with
  | some cats =>
    if cats.length > 0 then [⟨"categories", [], some (.str (String.intercalate "," cats))⟩]
    else []
  | none => []

/-- Properties contributed by the PRIORITY block (source lines 578-580). -/
def segPriority (p : CreateEventParams) : List ICalProp :=
  match p.priority with
  | some n => if 1 ≤ n ∧ n ≤ 9 then [⟨"priority", [], some (.int n)⟩] else []
  | none => []

/-- Properties contributed by the TRANSP block (source lines 583-585). -/
def segTransparency (p : CreateEventParams) : List ICalProp :=
  if truthyStr p.transparency then
    [⟨"transp", [], some (.str (jsToUpper (p.transparency.getD "")))⟩]
  else []

/-- Properties contributed by the ORGANIZER block (source lines 588-595). -/
def segOrganizer (p : CreateEventParams) : List ICalProp :=
  match p.organizer with
  | some o => [mkOrganizerProp o]
  | none => []

/-- Properties contributed by the ATTENDEE block (source lines 598-615). -/
def segAttendees (p : CreateEventParams) : List ICalProp :=
  match p.attendees with
  | some atts => if atts.length > 0 then atts.map mkAttendeeProp else []
  | none => []

/-- Properties contributed by the RRULE block (source lines 639-656). -/
def segRRule (p : CreateEventParams) : List ICalProp :=
  match p.recurrence with
  | some rp => [⟨"rrule", [], some (.recur (buildRRule rp))⟩]
  | none => []

/-- Subcomponents contributed by the reminders block (source lines 618-636). -/
def segValarms (p : CreateEventParams) : List ICalComponent :=
  match p.reminders with
  | some rs => if rs.length > 0 then rs.map (mkValarm p.summary) else []
  | none => []

/-- Properties of the base VEVENT (source lines 534-543). -/
def basePropsNF (p : CreateEventParams) (uid : String) (now : ICalTime) : List ICalProp :=
  [⟨"uid", [], some (.str uid)⟩, ⟨"dtstamp", [], some (.time now)⟩,
   ⟨"summary", [], some (.str p.summary)⟩, ⟨"dtstart", [], some (.time (createStartTime p))⟩]

/-- All properties of the created VEVENT, in source emission order. -/
def createPropsNF (p : CreateEventParams) (uid : String) (now : ICalTime) : List ICalProp :=
  basePropsNF p uid now ++ segEnd p ++ segLocation p ++ segDescription p ++ segStatus p
    ++ segUrl p ++ segCategories p ++ segPriority p ++ segTransparency p ++ segOrganizer p
    ++ segAttendees p ++ segRRule p

/-! #### Facts about the operation layer -/

theorem setParameter_name (p : ICalProp) (k v : String) :
    (p.setParameter k v).name = p.name := by
  unfold ICalProp.setParameter; split <;> rfl

theorem setParameter_value (p : ICalProp) (k v : String) :
    (p.setParameter k v).value = p.value := by
  unfold ICalProp.setParameter; split <;> rfl

theorem updateProp_name (c : ICalComponent) (nm : String) (v : PropValue) :
    (c.updatePropertyWithValue nm v).name = c.name := by
  unfold ICalComponent.updatePropertyWithValue ICalComponent.addProperty
  split <;> simp

theorem updateProp_fresh {c : ICalComponent} {nm : String} {v : PropValue}
    (h : c.hasProp nm = false) :
    c.updatePropertyWithValue nm v = .mk c.name (c.props ++ [⟨nm, [], some v⟩]) c.subs := by
  unfold ICalComponent.updatePropertyWithValue ICalComponent.addProperty
  simp [h]

theorem foldl_addProperty {α : Type} (f : α → ICalProp) (xs : List α) (c : ICalComponent) :
    xs.foldl (fun acc a => acc.addProperty (f a)) c = .mk c.name (c.props ++ xs.map f) c.subs := by
  induction xs generalizing c with
  | nil => cases c <;> simp
  | cons x xs ih =>
    rw [List.foldl_cons, ih]
    cases c <;> simp [ICalComponent.addProperty]

theorem foldl_addSubcomponent {α : Type} (f : α → ICalComponent) (xs : List α)
    (c : ICalComponent) :
    xs.foldl (fun acc a => acc.addSubcomponent (f a)) c = .mk c.name c.props (c.subs ++ xs.map f) := by
  induction xs generalizing c with
  | nil => cases c <;> simp
  | cons x xs ih =>
    rw [List.foldl_cons, ih]
    cases c <;> simp [ICalComponent.addSubcomponent]

theorem mkOrganizerProp_name (o : Organizer) : (mkOrganizerProp o).name = "organizer" := by
  unfold mkOrganizerProp; split <;> simp [setParameter_name]

theorem mkAttendeeProp_name (a : AttendeeInput) : (mkAttendeeProp a).name = "attendee" := by
  unfold mkAttendeeProp
  split <;> split <;> split <;> simp [setParameter_name]

theorem mkValarm_name (s : String) (r : ReminderInput) : (mkValarm s r).name = "valarm" := by
  unfold mkValarm
  split <;> simp [updateProp_name, ICalComponent.addProperty]

/-! #### Per-segment name facts -/

theorem segEnd_any_ne (p : CreateEventParams) (nm : String) (h : ("dtend" == nm) = false) :
    (segEnd p).any (fun q => q.name == nm) = false := by
  unfold segEnd; cases p.«end» <;> simp_all

theorem segLocation_any_ne (p : CreateEventParams) (nm : String)
    (h : ("location" == nm) = false) :
    (segLocation p).any (fun q => q.name == nm) = false := by
  unfold segLocation; split <;> simp_all

theorem segDescription_any_ne (p : CreateEventParams) (nm : String)
    (h : ("description" == nm) = false) :
    (segDescription p).any (fun q => q.name == nm) = false := by
  unfold segDescription; split <;> simp_all

theorem segStatus_any_ne (p : CreateEventParams) (nm : String)
    (h : ("status" == nm) = false) :
    (segStatus p).any (fun q => q.name == nm) = false := by
  unfold segStatus; split <;> simp_all

theorem segUrl_any_ne (p : CreateEventParams) (nm : String) (h : ("url" == nm) = false) :
    (segUrl p).any (fun q => q.name == nm) = false := by
  unfold segUrl; split <;> simp_all

theorem segCategories_any_ne (p : CreateEventParams) (nm : String)
    (h : ("categories" == nm) = false) :
    (segCategories p).any (fun q => q.name == nm) = false := by
  unfold segCategories
  cases p.categories with
  | none => rfl
  | some cats => split <;> simp_all

theorem segPriority_any_ne (p : CreateEventParams) (nm : String)
    (h : ("priority" == nm) = false) :
    (segPriority p).any (fun q => q.name == nm) = false := by
  unfold segPriority
  cases p.priority with
  | none => rfl
  | some n => split <;> simp_all

theorem segTransparency_any_ne (p : CreateEventParams) (nm : String)
    (h : ("transp" == nm) = false) :
    (segTransparency p).any (fun q => q.name == nm) = false := by
  unfold segTransparency; split <;> simp_all

theorem segOrganizer_any_ne (p : CreateEventParams) (nm : String)
    (h : ("organizer" == nm) = false) :
    (segOrganizer p).any (fun q => q.name == nm) = false := by
  unfold segOrganizer
  cases p.organizer with
  | none => rfl
  | some o => simp_all [mkOrganizerProp_name]

theorem segAttendees_any_ne (p : CreateEventParams) (nm : String)
    (h : ("attendee" == nm) = false) :
    (segAttendees p).any (fun q => q.name == nm) = false := by
  unfold segAttendees
  cases p.attendees with
  | none => rfl
  | some atts =>
    by_cases hl : atts.length > 0
    · simp only [if_pos hl, List.any_eq_false]
      intro q hq
      rcases List.mem_map.mp hq with ⟨a, _, rfl⟩
      simp [mkAttendeeProp_name, h]
    · simp [if_neg hl]

/-! #### Block-step equations -/

theorem createAddEnd_eq (p : CreateEventParams) (v : ICalComponent)
    (h : v.hasProp "dtend" = false) :
    createAddEnd p v = .mk v.name (v.props ++ segEnd p) v.subs := by
  unfold createAddEnd segEnd
  cases p.«end» with
  | none => cases v <;> simp
  | some e => simp only [updateProp_fresh h]

theorem createAddLocation_eq (p : CreateEventParams) (v : ICalComponent)
    (h : v.hasProp "location" = false) :
    createAddLocation p v = .mk v.name (v.props ++ segLocation p) v.subs := by
  unfold createAddLocation segLocation
  by_cases hc : truthyStr p.location = true
  · rw [if_pos hc, if_pos hc, updateProp_fresh h]
  · rw [if_neg hc, if_neg hc]; cases v <;> simp

theorem createAddDescription_eq (p : CreateEventParams) (v : ICalComponent)
    (h : v.hasProp "description" = false) :
    createAddDescription p v = .mk v.name (v.props ++ segDescription p) v.subs := by
  unfold createAddDescription segDescription
  by_cases hc : truthyStr p.description = true
  · rw [if_pos hc, if_pos hc, updateProp_fresh h]
  · rw [if_neg hc, if_neg hc]; cases v <;> simp

theorem createAddStatus_eq (p : CreateEventParams) (v : ICalComponent)
    (h : v.hasProp "status" = false) :
    createAddStatus p v = .mk v.name (v.props ++ segStatus p) v.subs := by
  unfold createAddStatus segStatus
  by_cases hc : truthyStr p.status = true
  · rw [if_pos hc, if_pos hc, updateProp_fresh h]
  · rw [if_neg hc, if_neg hc]; cases v <;> simp

theorem createAddUrl_eq (p : CreateEventParams) (v : ICalComponent)
    (h : v.hasProp "url" = false) :
    createAddUrl p v = .mk v.name (v.props ++ segUrl p) v.subs := by
  unfold createAddUrl segUrl
  by_cases hc : truthyStr p.url = true
  · rw [if_pos hc, if_pos hc, updateProp_fresh h]
  · rw [if_neg hc, if_neg hc]; cases v <;> simp

theorem createAddCategories_eq (p : CreateEventParams) (v : ICalComponent)
    (h : v.hasProp "categories" = false) :
    createAddCategories p v = .mk v.name (v.props ++ segCategories p) v.subs := by
  unfold createAddCategories segCategories
  cases p.categories with
  | none => cases v <;> simp
  | some cats =>
    by_cases hl : cats.length > 0
    · simp only [if_pos hl]; rw [updateProp_fresh h]
    · simp only [if_neg hl]; cases v <;> simp

theorem createAddPriority_eq (p : CreateEventParams) (v : ICalComponent)
    (h : v.hasProp "priority" = false) :
    createAddPriority p v = .mk v.name (v.props ++ segPriority p) v.subs := by
  unfold createAddPriority segPriority
  cases p.priority with
  | none => cases v <;> simp
  | some n =>
    by_cases hl : 1 ≤ n ∧ n ≤ 9
    · simp only [if_pos hl]; rw [updateProp_fresh h]
    · simp only [if_neg hl]; cases v <;> simp

theorem createAddTransparency_eq (p : CreateEventParams) (v : ICalComponent)
    (h : v.hasProp "transp" = false) :
    createAddTransparency p v = .mk v.name (v.props ++ segTransparency p) v.subs := by
  unfold createAddTransparency segTransparency
  by_cases hc : truthyStr p.transparency = true
  · rw [if_pos hc, if_pos hc, updateProp_fresh h]
  · rw [if_neg hc, if_neg hc]; cases v <;> simp

theorem createAddOrganizer_eq (p : CreateEventParams) (v : ICalComponent) :
    createAddOrganizer p v = .mk v.name (v.props ++ segOrganizer p) v.subs := by
  unfold createAddOrganizer segOrganizer
  cases p.organizer with
  | none => cases v <;> simp
  | some o => cases v <;> simp [ICalComponent.addProperty]

theorem createAddAttendees_eq (p : CreateEventParams) (v : ICalComponent) :
    createAddAttendees p v = .mk v.name (v.props ++ segAttendees p) v.subs := by
  unfold createAddAttendees segAttendees
  cases p.attendees with
  | none => cases v <;> simp
  | some atts =>
    by_cases hl : atts.length > 0
    · simp only [if_pos hl, foldl_addProperty]
    · simp only [if_neg hl]; cases v <;> simp

theorem createAddValarms_eq (p : CreateEventParams) (v : ICalComponent) :
    createAddValarms p v = .mk v.name v.props (v.subs ++ segValarms p) := by
  unfold createAddValarms segValarms
  cases p.reminders with
  | none => cases v <;> simp
  | some rs =>
    by_cases hl : rs.length > 0
    · simp only [if_pos hl, foldl_addSubcomponent]
    · simp only [if_neg hl]; cases v <;> simp

theorem createAddRRule_eq (p : CreateEventParams) (v : ICalComponent)
    (h : v.hasProp "rrule" = false) :
    createAddRRule p v = .mk v.name (v.props ++ segRRule p) v.subs := by
  unfold createAddRRule segRRule
  cases p.recurrence with
  | none => cases v <;> simp
  | some rp => simp only [updateProp_fresh h]

/-- Normalization: the VEVENT built by `createICalString` consists of the base
properties followed by each block's segment, in source order, with one VALARM
subcomponent per reminder. -/
theorem createVevent_eq (p : CreateEventParams) (uid : String) (now : ICalTime) :
    createVevent p uid now = .mk "vevent" (createPropsNF p uid now) (segValarms p) := by
  have e0 : createBaseVevent p uid now = .mk "vevent" (basePropsNF p uid now) [] := rfl
  have e1 : createAddEnd p (ICalComponent.mk "vevent" (basePropsNF p uid now) []) =
      .mk "vevent" (basePropsNF p uid now ++ segEnd p) [] :=
    createAddEnd_eq p _ rfl
  have e2 : createAddLocation p
        (ICalComponent.mk "vevent" (basePropsNF p uid now ++ segEnd p) []) =
      .mk "vevent" (basePropsNF p uid now ++ segEnd p ++ segLocation p) [] :=
    createAddLocation_eq p _ (by
      simp only [ICalComponent.hasProp, ICalComponent.props_mk, List.any_append,
        segEnd_any_ne p "location" (by decide), Bool.or_false]
      rfl)
  have e3 : createAddDescription p
        (ICalComponent.mk "vevent" (basePropsNF p uid now ++ segEnd p ++ segLocation p) []) =
      .mk "vevent" (basePropsNF p uid now ++ segEnd p ++ segLocation p ++ segDescription p) [] :=
    createAddDescription_eq p _ (by
      simp only [ICalComponent.hasProp, ICalComponent.props_mk, List.any_append,
        segEnd_any_ne p "description" (by decide), segLocation_any_ne p "description" (by decide), Bool.or_false]
      rfl)
  have e4 : createAddStatus p
        (ICalComponent.mk "vevent"
          (basePropsNF p uid now ++ segEnd p ++ segLocation p ++ segDescription p) []) =
      .mk "vevent"
        (basePropsNF p uid now ++ segEnd p ++ segLocation p ++ segDescription p ++ segStatus p)
        [] :=
    createAddStatus_eq p _ (by
      simp only [ICalComponent.hasProp, ICalComponent.props_mk, List.any_append,
        segEnd_any_ne p "status" (by decide), segLocation_any_ne p "status" (by decide),
        segDescription_any_ne p "status" (by decide), Bool.or_false]
      rfl)
  have e5 : createAddUrl p
        (ICalComponent.mk "vevent"
          (basePropsNF p uid now ++ segEnd p ++ segLocation p ++ segDescription p ++ segStatus p)
          []) =
      .mk "vevent"
        (basePropsNF p uid now ++ segEnd p ++ segLocation p ++ segDescription p ++ segStatus p
          ++ segUrl p) [] :=
    createAddUrl_eq p _ (by
      simp only [ICalComponent.hasProp, ICalComponent.props_mk, List.any_append,
        segEnd_any_ne p "url" (by decide), segLocation_any_ne p "url" (by decide),
        segDescription_any_ne p "url" (by decide), segStatus_any_ne p "url" (by decide), Bool.or_false]
      rfl)
  have e6 : createAddCategories p
        (ICalComponent.mk "vevent"
          (basePropsNF p uid now ++ segEnd p ++ segLocation p ++ segDescription p ++ segStatus p
            ++ segUrl p) []) =
      .mk "vevent"
        (basePropsNF p uid now ++ segEnd p ++ segLocation p ++ segDescription p ++ segStatus p
          ++ segUrl p ++ segCategories p) [] :=
    createAddCategories_eq p _ (by
      simp only [ICalComponent.hasProp, ICalComponent.props_mk, List.any_append,
        segEnd_any_ne p "categories" (by decide), segLocation_any_ne p "categories" (by decide),
        segDescription_any_ne p "categories" (by decide), segStatus_any_ne p "categories" (by decide),
        segUrl_any_ne p "categories" (by decide), Bool.or_false]
      rfl)
  have e7 : createAddPriority p
        (ICalComponent.mk "vevent"
          (basePropsNF p uid now ++ segEnd p ++ segLocation p ++ segDescription p ++ segStatus p
            ++ segUrl p ++ segCategories p) []) =
      .mk "vevent"
        (basePropsNF p uid now ++ segEnd p ++ segLocation p ++ segDescription p ++ segStatus p
          ++ segUrl p ++ segCategories p ++ segPriority p) [] :=
    createAddPriority_eq p _ (by
      simp only [ICalComponent.hasProp, ICalComponent.props_mk, List.any_append,
        segEnd_any_ne p "priority" (by decide), segLocation_any_ne p "priority" (by decide),
        segDescription_any_ne p "priority" (by decide), segStatus_any_ne p "priority" (by decide),
        segUrl_any_ne p "priority" (by decide), segCategories_any_ne p "priority" (by decide), Bool.or_false]
      rfl)
  have e8 : createAddTransparency p
        (ICalComponent.mk "vevent"
          (basePropsNF p uid now ++ segEnd p ++ segLocation p ++ segDescription p ++ segStatus p
            ++ segUrl p ++ segCategories p ++ segPriority p) []) =
      .mk "vevent"
        (basePropsNF p uid now ++ segEnd p ++ segLocation p ++ segDescription p ++ segStatus p
          ++ segUrl p ++ segCategories p ++ segPriority p ++ segTransparency p) [] :=
    createAddTransparency_eq p _ (by
      simp only [ICalComponent.hasProp, ICalComponent.props_mk, List.any_append,
        segEnd_any_ne p "transp" (by decide), segLocation_any_ne p "transp" (by decide),
        segDescription_any_ne p "transp" (by decide), segStatus_any_ne p "transp" (by decide),
        segUrl_any_ne p "transp" (by decide), segCategories_any_ne p "transp" (by decide),
        segPriority_any_ne p "transp" (by decide), Bool.or_false]
      rfl)
  have e9 : createAddOrganizer p
        (ICalComponent.mk "vevent"
          (basePropsNF p uid now ++ segEnd p ++ segLocation p ++ segDescription p ++ segStatus p
            ++ segUrl p ++ segCategories p ++ segPriority p ++ segTransparency p) []) =
      .mk "vevent"
        (basePropsNF p uid now ++ segEnd p ++ segLocation p ++ segDescription p ++ segStatus p
          ++ segUrl p ++ segCategories p ++ segPriority p ++ segTransparency p ++ segOrganizer p)
        [] :=
    createAddOrganizer_eq p _
  have e10 : createAddAttendees p
        (ICalComponent.mk "vevent"
          (basePropsNF p uid now ++ segEnd p ++ segLocation p ++ segDescription p ++ segStatus p
            ++ segUrl p ++ segCategories p ++ segPriority p ++ segTransparency p
            ++ segOrganizer p) []) =
      .mk "vevent"
        (basePropsNF p uid now ++ segEnd p ++ segLocation p ++ segDescription p ++ segStatus p
          ++ segUrl p ++ segCategories p ++ segPriority p ++ segTransparency p ++ segOrganizer p
          ++ segAttendees p) [] :=
    createAddAttendees_eq p _
  have e11 : createAddValarms p
        (ICalComponent.mk "vevent"
          (basePropsNF p uid now ++ segEnd p ++ segLocation p ++ segDescription p ++ segStatus p
            ++ segUrl p ++ segCategories p ++ segPriority p ++ segTransparency p
            ++ segOrganizer p ++ segAttendees p) []) =
      .mk "vevent"
        (basePropsNF p uid now ++ segEnd p ++ segLocation p ++ segDescription p ++ segStatus p
          ++ segUrl p ++ segCategories p ++ segPriority p ++ segTransparency p ++ segOrganizer p
          ++ segAttendees p) (segValarms p) :=
    createAddValarms_eq p _
  have e12 : createAddRRule p
        (ICalComponent.mk "vevent"
          (basePropsNF p uid now ++ segEnd p ++ segLocation p ++ segDescription p ++ segStatus p
            ++ segUrl p ++ segCategories p ++ segPriority p ++ segTransparency p
            ++ segOrganizer p ++ segAttendees p) (segValarms p)) =
      .mk "vevent"
        (basePropsNF p uid now ++ segEnd p ++ segLocation p ++ segDescription p ++ segStatus p
          ++ segUrl p ++ segCategories p ++ segPriority p ++ segTransparency p ++ segOrganizer p
          ++ segAttendees p ++ segRRule p) (segValarms p) :=
    createAddRRule_eq p _ (by
      simp only [ICalComponent.hasProp, ICalComponent.props_mk, List.any_append,
        segEnd_any_ne p "rrule" (by decide), segLocation_any_ne p "rrule" (by decide),
        segDescription_any_ne p "rrule" (by decide), segStatus_any_ne p "rrule" (by decide),
        segUrl_any_ne p "rrule" (by decide), segCategories_any_ne p "rrule" (by decide),
        segPriority_any_ne p "rrule" (by decide), segTransparency_any_ne p "rrule" (by decide),
        segOrganizer_any_ne p "rrule" (by decide), segAttendees_any_ne p "rrule" (by decide), Bool.or_false]
      rfl)
  unfold createVevent
  rw [e0, e1, e2, e3, e4, e5, e6, e7, e8, e9, e10, e11, e12]
  rfl

/-- Properties of the VCALENDAR envelope: VERSION, PRODID, and the
unconditional METHOD:REQUEST (source lines 527-530). -/
def vcalPropsNF : List ICalProp :=
  [⟨"version", [], some (.str "2.0")⟩,
   ⟨"prodid", [], some (.str "-//Fastmail Aibo//EN")⟩,
   ⟨"method", [], some (.str "REQUEST")⟩]

theorem createICalString_eq (p : CreateEventParams) (uid : String) (now : ICalTime) :
    createICalString p uid now = (.mk "vcalendar" vcalPropsNF [createVevent p uid now], uid) :=
  rfl

/-- A minimal concrete creation request with no attendees (C3 input). -/
def c3Params : CreateEventParams :=
  { summary := "Team Meeting", start := ⟨2024, 12, 4, 10, 0, 0⟩
    «end» := none, allDay := none, location := none, description := none
    recurrence := none, attendees := none, organizer := none, status := none
    url := none, categories := none, priority := none, transparency := none
    reminders := none }

/-- C3 counterexample: the claim says the envelope carries METHOD:REQUEST if
and only if the attendees list is non-empty, and that no METHOD property is
emitted when attendees is absent.  Here the request has no attendees and the
produced envelope still carries METHOD:REQUEST (source line 530 writes it
unconditionally). -/
theorem C3_counterexample :
    c3Params.attendees = none ∧
    (createICalString c3Params "u1" ⟨2024, 12, 4, 9, 0, 0, false⟩).1.getFirstPropertyValue
        "method" = some (.str "REQUEST") :=
  ⟨rfl, rfl⟩

/-- C3 (amended): the VCALENDAR envelope produced by `createICalString`
carries METHOD:REQUEST for every creation request, regardless of whether
attendees are present (source line 530 is unconditional). -/
theorem C3_method_always (p : CreateEventParams) (uid : String) (now : ICalTime) :
    (createICalString p uid now).1.getFirstPropertyValue "method" = some (.str "REQUEST") :=
  rfl

/-! ### String helpers mirroring the JS string operations -/

/-- Whether the first list starts with the second (character-wise). -/
def strStartsWith : List Char → List Char → Bool
  | _, [] => true
  | [], _ :: _ => false
  | c :: cs, p :: ps => c == p && strStartsWith cs ps

/-- Whether `pat` occurs in `s` (JS `s.includes(pat)`), on character lists. -/
def strHasSub : List Char → List Char → Bool
  | [], pat => strStartsWith [] pat
  | c :: cs, pat => strStartsWith (c :: cs) pat || strHasSub cs pat

/-- JS `s.includes(pat)`. -/
def strIncludes (s pat : String) : Bool := strHasSub s.data pat.data

/-- Replace the first occurrence of `pat` (character list) by `rep`. -/
def replaceFirstAux : List Char → List Char → List Char → List Char
  | [], _, _ => []
  | c :: cs, pat, rep =>
    if strStartsWith (c :: cs) pat then rep ++ (c :: cs).drop pat.length
    else c :: replaceFirstAux cs pat rep

/-- JS `s.replace(pat, rep)` for plain-string patterns (first occurrence
only); the source uses it only as `freq.replace("ly", "")`. -/
def replaceFirst (s pat rep : String) : String :=
  ⟨replaceFirstAux s.data pat.data rep.data⟩

/-- Two-digit zero padding. -/
def pad2 (n : Nat) : String := if n < 10 then "0" ++ toString n else toString n

/-- Four-digit zero padding. -/
def pad4 (n : Nat) : String :=
  if n < 10 then "000" ++ toString n
  else if n < 100 then "00" ++ toString n
  else if n < 1000 then "0" ++ toString n
  else toString n

/-- The date part of JS `Date.toISOString()` (the `split("T")[0]` at source
line 296): `YYYY-MM-DD`. -/
def isoDatePart (d : JSDate) : String :=
  pad4 d.year ++ "-" ++ pad2 d.month ++ "-" ++ pad2 d.day

/-- Weekday-code table of `formatRecurrenceHumanReadable` (source lines
284-287), with the `?? d` fallback. -/
def dayName (d : String) : String :=
  if d == "SU" then "Sunday" else if d == "MO" then "Monday"
  else if d == "TU" then "Tuesday" else if d == "WE" then "Wednesday"
  else if d == "TH" then "Thursday" else if d == "FR" then "Friday"
  else if d == "SA" then "Saturday" else d

/-- Helper `formatRecurrenceHumanReadable` (source lines 266-300).  Our
`RecurData` always carries `freq` and `interval`, so the `?? "unknown"` and
`?? 1` fallbacks for absent fields do not arise. -/
def formatRecurrenceHumanReadable (rrule : RecurData) : String :=
  let freq := jsToLower rrule.freq
  let interval := rrule.interval
  let parts : List String :=
    if interval == 1 then [freq]
    else ["every " ++ toString interval ++ " " ++ replaceFirst freq "ly" "" ++ "s"]
  let parts :=
    if rrule.byday.length > 0 then
      parts ++ ["on " ++ String.intercalate ", " (rrule.byday.map dayName)]
    else parts
  let parts :=
    if truthyNat rrule.count then parts ++ ["(" ++ toString (rrule.count.getD 0) ++ " times)"]
    else
      match rrule.«until» with
      | some u => parts ++ ["until " ++ isoDatePart u.toJSDate]
      | none => parts
  String.intercalate " " parts

/-- Helper `extractEmail` (source lines 303-310): strip a case-insensitive
leading `mailto:` (JS `value.toLowerCase().startsWith("mailto:")` then
`value.slice(7)`). -/
def extractEmail (value : String) : String :=
  if strStartsWith (value.data.map Char.toLower) "mailto:".data then ⟨value.data.drop 7⟩
  else value

/-! ### Parse result types (source lines 150-197) -/

/-- Result shape `Organizer` of parsing (source lines 158-161). -/
structure ParsedOrganizer where
  email : String
  name : Option String
  deriving Repr, DecidableEq

/-- Result shape `Attendee` of parsing (source lines 150-156; the parser
populates only email / name / status, lines 386-395). -/
structure ParsedAttendee where
  email : String
  name : Option String
  status : Option String
  deriving Repr, DecidableEq

/-- Result shape `RecurrenceInfo` (source lines 163-170). -/
structure RecurrenceInfo where
  frequency : String
  interval : Option Nat
  count : Option Nat
  «until» : Option JSDate
  byDay : Option (List String)
  humanReadable : String
  deriving Repr, DecidableEq

/-- Result shape `Reminder` (source lines 172-176); `parseICalEvent` never
populates this field. -/
structure Reminder where
  trigger : String
  action : Option String
  description : Option String
  deriving Repr, DecidableEq

/-- Result shape `CalendarEvent` (source lines 178-197).  The fields
`categories`, `priority`, `transparency`, `eventUrl` and `reminders` exist on
the interface but are never assigned by `parseICalEvent`, hence always `none`
in a parse result. -/
structure CalendarEvent where
  uid : String
  url : String
  summary : String
  start : JSDate
  «end» : Option JSDate
  location : Option String
  description : Option String
  allDay : Bool
  status : Option String
  organizer : Option ParsedOrganizer
  attendees : Option (List ParsedAttendee)
  recurrence : Option RecurrenceInfo
  categories : Option (List String)
  priority : Option Nat
  transparency : Option String
  eventUrl : Option String
  reminders : Option (List Reminder)
  deriving Repr, DecidableEq

/-- JS `String(v)` applied to a property value, as done on organizer and
attendee values (these are always strings in the documents this codec
handles; `String(null)` is the string "null"). -/
def strOfValue : Option PropValue → String
  | some (.str s) => s
  | none => "null"
  | some _ => ""

/-- One attendee of the parse (source lines 386-395): email unwrapped from
`mailto:`, `CN` and `PARTSTAT` parameters read with JS truthiness. -/
def parseAttendeeProp (prop : ICalProp) : ParsedAttendee :=
  { email := extractEmail (strOfValue prop.value)
    name :=
      match prop.getParameter "cn" with
      | some c => if c != "" then some c else none
      | none => none
    status :=
      match prop.getParameter "partstat" with
      | some ps => if ps != "" then some (jsToUpper ps) else none
      | none => none }

/-- Body of `parseICalEvent` after the text layer (source lines 325-428).
The `ICAL.Event` accessors `uid` / `startDate` / `endDate` / `summary` /
`location` / `description` are modelled as reads of the first property of the
corresponding name; in particular `event.endDate` is the first DTEND value.
Missing UID, empty UID, or missing/unusable DTSTART yield `none`
(lines 336-344). -/
def parseICalEventComp (vcalendar : ICalComponent) (url : String) : Option CalendarEvent :=
  match vcalendar.getFirstSubcomponent "vevent" with
  | none => none
  | some vevent =>
    match vevent.getFirstPropertyValue "uid" with
    | some (.str uid) =>
      if uid == "" then none
      else
        match vevent.getFirstPropertyValue "dtstart" with
        | some (.time startTime) =>
          let allDay := startTime.isDate
          let start := startTime.toJSDate
          let eventEnd : Option JSDate :=
            match vevent.getFirstPropertyValue "dtend" with
            | some (.time t) => some t.toJSDate
            | _ => none
          let summary : String :=
            match vevent.getFirstPropertyValue "summary" with
            | some (.str s) => s
            | _ => ""
          let location : Option String :=
            match vevent.getFirstPropertyValue "location" with
            | some (.str s) => some s
            | _ => none
          let description : Option String :=
            match vevent.getFirstPropertyValue "description" with
            | some (.str s) => some s
            | _ => none
          let status : Option String :=
            match vevent.getFirstPropertyValue "status" with
            | some (.str s) => if s != "" then some (jsToUpper s) else none
            | _ => none
          let organizer : Option ParsedOrganizer :=
            match vevent.getFirstProp? "organizer" with
            | some prop =>
              some { email := extractEmail (strOfValue prop.value)
                     name :=
                       match prop.getParameter "cn" with
                       | some c => if c != "" then some c else none
                       | none => none }
            | none => none
          let attendeeProps := vevent.getAllProperties "attendee"
          let attendees : Option (List ParsedAttendee) :=
            if attendeeProps.length > 0 then some (attendeeProps.map parseAttendeeProp)
            else none
          let recurrence : Option RecurrenceInfo :=
            match vevent.getFirstProp? "rrule" with
            | some prop =>
              match prop.value with
              | some (.recur rv) =>
                if rv.freq != "" then
                  some { frequency := rv.freq
                         humanReadable := formatRecurrenceHumanReadable rv
                         interval := if rv.interval > 1 then some rv.interval else none
                         count :=
                           match rv.count with
                           | some c => if c != 0 then some c else none
                           | none => none
                         «until» := rv.«until».map ICalTime.toJSDate
                         byDay := if rv.byday.length > 0 then some rv.byday else none }
                else none
              | _ => none
            | none => none
          some { uid := uid, url := url, summary := summary, start := start
                 «end» := eventEnd, location := location, description := description
                 allDay := allDay, status := status, organizer := organizer
                 attendees := attendees, recurrence := recurrence
                 categories := none, priority := none, transparency := none
                 eventUrl := none, reminders := none }
        | _ => none
    | _ => none

/-- Function `parseICalEvent` (source lines 315-433).  The envelope marker
check (line 320) runs on the raw text; the call to the external text parser
`ICAL.parse` is modelled by the explicit argument `parsedDoc`: `none` when
`ICAL.parse` throws (caught at lines 429-432, returning `undefined`),
`some tree` otherwise. -/
def parseICalEvent (icalContent : String) (parsedDoc : Option ICalComponent)
    (url : String) : Option CalendarEvent :=
  if !strIncludes icalContent "BEGIN:VCALENDAR" || !strIncludes icalContent "BEGIN:VEVENT" then
    none
  else
    match parsedDoc with
    | none => none
    | some vcal => parseICalEventComp vcal url

/-! ### Lookup lemmas on the created VEVENT -/

theorem segRRule_any_ne (p : CreateEventParams) (nm : String)
    (h : ("rrule" == nm) = false) :
    (segRRule p).any (fun q => q.name == nm) = false := by
  unfold segRRule
  cases p.recurrence with
  | none => rfl
  | some rp => simp_all

theorem find?_eq_none_of_any_ne {ps : List ICalProp} {nm : String}
    (h : ps.any (fun q => q.name == nm) = false) :
    ps.find? (fun q => q.name == nm) = none := by
  rw [List.find?_eq_none]
  intro q hq
  have := List.any_eq_false.mp h q hq
  simpa using this

theorem filter_eq_nil_of_any_ne {ps : List ICalProp} {nm : String}
    (h : ps.any (fun q => q.name == nm) = false) :
    ps.filter (fun q => q.name == nm) = [] := by
  rw [List.filter_eq_nil_iff]
  intro q hq
  have := List.any_eq_false.mp h q hq
  simpa using this

theorem mkOrganizerProp_value (o : Organizer) :
    (mkOrganizerProp o).value = some (.str ("mailto:" ++ o.email)) := by
  unfold mkOrganizerProp; split <;> simp [setParameter_value]

theorem mkOrganizerProp_cn (o : Organizer) :
    (mkOrganizerProp o).getParameter "cn" =
      (if truthyStr o.name then some (o.name.getD "") else none) := by
  unfold mkOrganizerProp
  by_cases hc : truthyStr o.name = true
  · rw [if_pos hc, if_pos hc]; rfl
  · rw [if_neg hc, if_neg hc]; rfl

theorem mkAttendeeProp_value (a : AttendeeInput) :
    (mkAttendeeProp a).value = some (.str ("mailto:" ++ a.email)) := by
  unfold mkAttendeeProp
  split <;> split <;> split <;> simp [setParameter_value]

theorem mkAttendeeProp_cn (a : AttendeeInput) :
    (mkAttendeeProp a).getParameter "cn" =
      (if truthyStr a.name then some (a.name.getD "") else none) := by
  unfold mkAttendeeProp
  cases hn : truthyStr a.name <;> cases hr : truthyStr a.role <;> rfl

theorem mkAttendeeProp_partstat (a : AttendeeInput) :
    (mkAttendeeProp a).getParameter "partstat" = some "NEEDS-ACTION" := by
  unfold mkAttendeeProp
  split <;> split <;> split <;> rfl

theorem strStartsWith_append (pre rest : List Char) : strStartsWith (pre ++ rest) pre = true := by
  induction pre with
  | nil => cases rest <;> rfl
  | cons c cs ih => simp [strStartsWith, ih]

/-- Unwrapping inverts the wrapping: `extractEmail ("mailto:" ++ e) = e`. -/
theorem extractEmail_mailto (e : String) : extractEmail ("mailto:" ++ e) = e := by
  obtain ⟨l⟩ := e
  unfold extractEmail
  rw [show ("mailto:" ++ String.mk l).data = "mailto:".data ++ l from rfl, List.map_append,
    show "mailto:".data.map Char.toLower = "mailto:".data from rfl, strStartsWith_append]
  rfl

/-- The value a full round trip recovers for one attendee: email and (truthy)
name are reproduced; the participation status is the fixed NEEDS-ACTION the
serializer writes; the role and rsvp of the input are not read back. -/
def expectedAttendee (a : AttendeeInput) : ParsedAttendee :=
  { email := a.email
    name := match a.name with | some s => if s != "" then some s else none | none => none
    status := some "NEEDS-ACTION" }

theorem parse_mk_attendee (a : AttendeeInput) :
    parseAttendeeProp (mkAttendeeProp a) = expectedAttendee a := by
  unfold parseAttendeeProp expectedAttendee
  rw [mkAttendeeProp_value, mkAttendeeProp_cn, mkAttendeeProp_partstat]
  rw [show strOfValue (some (.str ("mailto:" ++ a.email))) = "mailto:" ++ a.email from rfl,
    extractEmail_mailto]
  simp only [ParsedAttendee.mk.injEq]
  refine ⟨trivial, ?_, by decide⟩
  cases a.name with
  | none => rfl
  | some s => by_cases hs : (s != "") = true <;> simp [truthyStr, hs]

/-- Normal form of `buildRRule`. -/
theorem buildRRule_eq (rp : RecurrenceParams) :
    buildRRule rp =
      { freq := jsToUpper rp.frequency
        interval := if truthyNat rp.interval then rp.interval.getD 0 else 1
        count := if truthyNat rp.count then some (rp.count.getD 0) else none
        «until» := rp.«until».map ICalTime.fromJSDate
        byday :=
          match rp.byDay with
          | some ds => if ds.length > 0 then ds.map jsToUpper else []
          | none => [] } := by
  unfold buildRRule
  by_cases hc : truthyNat rp.count = true <;>
    cases rp.«until» <;> cases rp.byDay <;> simp [hc] <;> split <;> rfl

theorem lookup_uid (p : CreateEventParams) (uid : String) (now : ICalTime)
    (ss : List ICalComponent) :
    (ICalComponent.mk "vevent" (createPropsNF p uid now) ss).getFirstPropertyValue "uid" =
      some (.str uid) := rfl

theorem lookup_summary (p : CreateEventParams) (uid : String) (now : ICalTime)
    (ss : List ICalComponent) :
    (ICalComponent.mk "vevent" (createPropsNF p uid now) ss).getFirstPropertyValue "summary" =
      some (.str p.summary) := rfl

theorem lookup_dtstart (p : CreateEventParams) (uid : String) (now : ICalTime)
    (ss : List ICalComponent) :
    (ICalComponent.mk "vevent" (createPropsNF p uid now) ss).getFirstPropertyValue "dtstart" =
      some (.time (createStartTime p)) := rfl

theorem lookup_dtend (p : CreateEventParams) (uid : String) (now : ICalTime)
    (ss : List ICalComponent) :
    (ICalComponent.mk "vevent" (createPropsNF p uid now) ss).getFirstPropertyValue "dtend" =
      p.«end».map (fun e => .time (createEndTime p e)) := by
  unfold ICalComponent.getFirstPropertyValue ICalComponent.getFirstProp? createPropsNF
  simp only [ICalComponent.props_mk, List.find?_append]
  rw [show (basePropsNF p uid now).find? (fun q => q.name == "dtend") = none from rfl,
    find?_eq_none_of_any_ne (segLocation_any_ne p "dtend" (by decide)),
    find?_eq_none_of_any_ne (segDescription_any_ne p "dtend" (by decide)),
    find?_eq_none_of_any_ne (segStatus_any_ne p "dtend" (by decide)),
    find?_eq_none_of_any_ne (segUrl_any_ne p "dtend" (by decide)),
    find?_eq_none_of_any_ne (segCategories_any_ne p "dtend" (by decide)),
    find?_eq_none_of_any_ne (segPriority_any_ne p "dtend" (by decide)),
    find?_eq_none_of_any_ne (segTransparency_any_ne p "dtend" (by decide)),
    find?_eq_none_of_any_ne (segOrganizer_any_ne p "dtend" (by decide)),
    find?_eq_none_of_any_ne (segAttendees_any_ne p "dtend" (by decide)),
    find?_eq_none_of_any_ne (segRRule_any_ne p "dtend" (by decide))]
  simp only [Option.none_or, Option.or_none]
  unfold segEnd
  cases p.«end» <;> simp

theorem lookup_location (p : CreateEventParams) (uid : String) (now : ICalTime)
    (ss : List ICalComponent) :
    (ICalComponent.mk "vevent" (createPropsNF p uid now) ss).getFirstPropertyValue "location" =
      (if truthyStr p.location then some (.str (p.location.getD "")) else none) := by
  unfold ICalComponent.getFirstPropertyValue ICalComponent.getFirstProp? createPropsNF
  simp only [ICalComponent.props_mk, List.find?_append]
  rw [show (basePropsNF p uid now).find? (fun q => q.name == "location") = none from rfl,
    find?_eq_none_of_any_ne (segEnd_any_ne p "location" (by decide)),
    find?_eq_none_of_any_ne (segDescription_any_ne p "location" (by decide)),
    find?_eq_none_of_any_ne (segStatus_any_ne p "location" (by decide)),
    find?_eq_none_of_any_ne (segUrl_any_ne p "location" (by decide)),
    find?_eq_none_of_any_ne (segCategories_any_ne p "location" (by decide)),
    find?_eq_none_of_any_ne (segPriority_any_ne p "location" (by decide)),
    find?_eq_none_of_any_ne (segTransparency_any_ne p "location" (by decide)),
    find?_eq_none_of_any_ne (segOrganizer_any_ne p "location" (by decide)),
    find?_eq_none_of_any_ne (segAttendees_any_ne p "location" (by decide)),
    find?_eq_none_of_any_ne (segRRule_any_ne p "location" (by decide))]
  simp only [Option.none_or, Option.or_none]
  unfold segLocation
  by_cases hc : truthyStr p.location = true
  · rw [if_pos hc, if_pos hc]; rfl
  · rw [if_neg hc, if_neg hc]; rfl

theorem lookup_description (p : CreateEventParams) (uid : String) (now : ICalTime)
    (ss : List ICalComponent) :
    (ICalComponent.mk "vevent" (createPropsNF p uid now) ss).getFirstPropertyValue
        "description" =
      (if truthyStr p.description then some (.str (p.description.getD "")) else none) := by
  unfold ICalComponent.getFirstPropertyValue ICalComponent.getFirstProp? createPropsNF
  simp only [ICalComponent.props_mk, List.find?_append]
  rw [show (basePropsNF p uid now).find? (fun q => q.name == "description") = none from rfl,
    find?_eq_none_of_any_ne (segEnd_any_ne p "description" (by decide)),
    find?_eq_none_of_any_ne (segLocation_any_ne p "description" (by decide)),
    find?_eq_none_of_any_ne (segStatus_any_ne p "description" (by decide)),
    find?_eq_none_of_any_ne (segUrl_any_ne p "description" (by decide)),
    find?_eq_none_of_any_ne (segCategories_any_ne p "description" (by decide)),
    find?_eq_none_of_any_ne (segPriority_any_ne p "description" (by decide)),
    find?_eq_none_of_any_ne (segTransparency_any_ne p "description" (by decide)),
    find?_eq_none_of_any_ne (segOrganizer_any_ne p "description" (by decide)),
    find?_eq_none_of_any_ne (segAttendees_any_ne p "description" (by decide)),
    find?_eq_none_of_any_ne (segRRule_any_ne p "description" (by decide))]
  simp only [Option.none_or, Option.or_none]
  unfold segDescription
  by_cases hc : truthyStr p.description = true
  · rw [if_pos hc, if_pos hc]; rfl
  · rw [if_neg hc, if_neg hc]; rfl

theorem lookup_status (p : CreateEventParams) (uid : String) (now : ICalTime)
    (ss : List ICalComponent) :
    (ICalComponent.mk "vevent" (createPropsNF p uid now) ss).getFirstPropertyValue "status" =
      (if truthyStr p.status then some (.str (jsToUpper (p.status.getD ""))) else none) := by
  unfold ICalComponent.getFirstPropertyValue ICalComponent.getFirstProp? createPropsNF
  simp only [ICalComponent.props_mk, List.find?_append]
  rw [show (basePropsNF p uid now).find? (fun q => q.name == "status") = none from rfl,
    find?_eq_none_of_any_ne (segEnd_any_ne p "status" (by decide)),
    find?_eq_none_of_any_ne (segLocation_any_ne p "status" (by decide)),
    find?_eq_none_of_any_ne (segDescription_any_ne p "status" (by decide)),
    find?_eq_none_of_any_ne (segUrl_any_ne p "status" (by decide)),
    find?_eq_none_of_any_ne (segCategories_any_ne p "status" (by decide)),
    find?_eq_none_of_any_ne (segPriority_any_ne p "status" (by decide)),
    find?_eq_none_of_any_ne (segTransparency_any_ne p "status" (by decide)),
    find?_eq_none_of_any_ne (segOrganizer_any_ne p "status" (by decide)),
    find?_eq_none_of_any_ne (segAttendees_any_ne p "status" (by decide)),
    find?_eq_none_of_any_ne (segRRule_any_ne p "status" (by decide))]
  simp only [Option.none_or, Option.or_none]
  unfold segStatus
  by_cases hc : truthyStr p.status = true
  · rw [if_pos hc, if_pos hc]; rfl
  · rw [if_neg hc, if_neg hc]; rfl

theorem lookup_organizer (p : CreateEventParams) (uid : String) (now : ICalTime)
    (ss : List ICalComponent) :
    (ICalComponent.mk "vevent" (createPropsNF p uid now) ss).getFirstProp? "organizer" =
      p.organizer.map mkOrganizerProp := by
  unfold ICalComponent.getFirstProp? createPropsNF
  simp only [ICalComponent.props_mk, List.find?_append]
  rw [show (basePropsNF p uid now).find? (fun q => q.name == "organizer") = none from rfl,
    find?_eq_none_of_any_ne (segEnd_any_ne p "organizer" (by decide)),
    find?_eq_none_of_any_ne (segLocation_any_ne p "organizer" (by decide)),
    find?_eq_none_of_any_ne (segDescription_any_ne p "organizer" (by decide)),
    find?_eq_none_of_any_ne (segStatus_any_ne p "organizer" (by decide)),
    find?_eq_none_of_any_ne (segUrl_any_ne p "organizer" (by decide)),
    find?_eq_none_of_any_ne (segCategories_any_ne p "organizer" (by decide)),
    find?_eq_none_of_any_ne (segPriority_any_ne p "organizer" (by decide)),
    find?_eq_none_of_any_ne (segTransparency_any_ne p "organizer" (by decide)),
    find?_eq_none_of_any_ne (segAttendees_any_ne p "organizer" (by decide)),
    find?_eq_none_of_any_ne (segRRule_any_ne p "organizer" (by decide))]
  simp only [Option.none_or, Option.or_none]
  unfold segOrganizer
  cases p.organizer with
  | none => rfl
  | some o => simp [mkOrganizerProp_name]

theorem lookup_rrule (p : CreateEventParams) (uid : String) (now : ICalTime)
    (ss : List ICalComponent) :
    (ICalComponent.mk "vevent" (createPropsNF p uid now) ss).getFirstProp? "rrule" =
      p.recurrence.map (fun rp => ⟨"rrule", [], some (.recur (buildRRule rp))⟩) := by
  unfold ICalComponent.getFirstProp? createPropsNF
  simp only [ICalComponent.props_mk, List.find?_append]
  rw [show (basePropsNF p uid now).find? (fun q => q.name == "rrule") = none from rfl,
    find?_eq_none_of_any_ne (segEnd_any_ne p "rrule" (by decide)),
    find?_eq_none_of_any_ne (segLocation_any_ne p "rrule" (by decide)),
    find?_eq_none_of_any_ne (segDescription_any_ne p "rrule" (by decide)),
    find?_eq_none_of_any_ne (segStatus_any_ne p "rrule" (by decide)),
    find?_eq_none_of_any_ne (segUrl_any_ne p "rrule" (by decide)),
    find?_eq_none_of_any_ne (segCategories_any_ne p "rrule" (by decide)),
    find?_eq_none_of_any_ne (segPriority_any_ne p "rrule" (by decide)),
    find?_eq_none_of_any_ne (segTransparency_any_ne p "rrule" (by decide)),
    find?_eq_none_of_any_ne (segOrganizer_any_ne p "rrule" (by decide)),
    find?_eq_none_of_any_ne (segAttendees_any_ne p "rrule" (by decide))]
  simp only [Option.none_or, Option.or_none]
  unfold segRRule
  cases p.recurrence <;> simp

theorem lookup_attendees (p : CreateEventParams) (uid : String) (now : ICalTime)
    (ss : List ICalComponent) :
    (ICalComponent.mk "vevent" (createPropsNF p uid now) ss).getAllProperties "attendee" =
      segAttendees p := by
  unfold ICalComponent.getAllProperties createPropsNF
  simp only [ICalComponent.props_mk, List.filter_append]
  rw [show (basePropsNF p uid now).filter (fun q => q.name == "attendee") = [] from rfl,
    filter_eq_nil_of_any_ne (segEnd_any_ne p "attendee" (by decide)),
    filter_eq_nil_of_any_ne (segLocation_any_ne p "attendee" (by decide)),
    filter_eq_nil_of_any_ne (segDescription_any_ne p "attendee" (by decide)),
    filter_eq_nil_of_any_ne (segStatus_any_ne p "attendee" (by decide)),
    filter_eq_nil_of_any_ne (segUrl_any_ne p "attendee" (by decide)),
    filter_eq_nil_of_any_ne (segCategories_any_ne p "attendee" (by decide)),
    filter_eq_nil_of_any_ne (segPriority_any_ne p "attendee" (by decide)),
    filter_eq_nil_of_any_ne (segTransparency_any_ne p "attendee" (by decide)),
    filter_eq_nil_of_any_ne (segOrganizer_any_ne p "attendee" (by decide)),
    filter_eq_nil_of_any_ne (segRRule_any_ne p "attendee" (by decide))]
  simp only [List.nil_append, List.append_nil]
  have hall : ∀ q ∈ segAttendees p, (q.name == "attendee") = true := by
    intro q hq
    unfold segAttendees at hq
    cases hp : p.attendees with
    | none => simp [hp] at hq
    | some atts =>
      simp only [hp] at hq
      by_cases hl : atts.length > 0
      · rw [if_pos hl] at hq
        rcases List.mem_map.mp hq with ⟨a, _, rfl⟩
        simp [mkAttendeeProp_name]
      · rw [if_neg hl] at hq; simp at hq
  exact List.filter_eq_self.mpr hall

theorem parse_mk_organizer (o : Organizer) :
    (ParsedOrganizer.mk (extractEmail (strOfValue (mkOrganizerProp o).value))
      (match (mkOrganizerProp o).getParameter "cn" with
       | some c => if c != "" then some c else none
       | none => none)) =
    ⟨o.email, if truthyStr o.name then o.name else none⟩ := by
  rw [mkOrganizerProp_value, mkOrganizerProp_cn]
  rw [show strOfValue (some (.str ("mailto:" ++ o.email))) = "mailto:" ++ o.email from rfl,
    extractEmail_mailto]
  cases hn : o.name with
  | none => rfl
  | some s => by_cases hs : (s != "") = true <;> simp [truthyStr, hs]

theorem recur_interval_eq (rp : RecurrenceParams) :
    (if (if truthyNat rp.interval then rp.interval.getD 0 else 1) > 1
      then some (if truthyNat rp.interval then rp.interval.getD 0 else 1) else none) =
      (match rp.interval with
       | some i => if i > 1 then some i else none
       | none => none) := by
  cases hI : rp.interval with
  | none => rfl
  | some i =>
    by_cases hi : (i != 0) = true
    · simp [truthyNat, hi]
    · simp [truthyNat] at hi
      subst hi
      rfl

theorem recur_count_eq (rp : RecurrenceParams) :
    (match (if truthyNat rp.count then some (rp.count.getD 0) else none) with
      | some c => if (c != 0) = true then some c else none
      | none => none) =
      (match rp.count with
       | some c => if (c != 0) = true then some c else none
       | none => none) := by
  cases hC : rp.count with
  | none => rfl
  | some c =>
    by_cases hc : (c != 0) = true
    · simp [truthyNat, hc]
    · simp [truthyNat] at hc
      subst hc
      rfl

theorem recur_until_eq (rp : RecurrenceParams) :
    (rp.«until».map ICalTime.fromJSDate).map ICalTime.toJSDate = rp.«until» := by
  cases rp.«until» with
  | none => rfl
  | some u => rfl

theorem recur_byday_eq (rp : RecurrenceParams) :
    (if (match rp.byDay with
          | some ds => if ds.length > 0 then ds.map jsToUpper else []
          | none => ([] : List String)).length > 0
      then some (match rp.byDay with
          | some ds => if ds.length > 0 then ds.map jsToUpper else []
          | none => ([] : List String))
      else none) =
      (match rp.byDay with
       | some ds => if ds.length > 0 then some (ds.map jsToUpper) else none
       | none => none) := by
  cases hB : rp.byDay with
  | none => rfl
  | some ds => by_cases hd : ds.length > 0 <;> simp [hd]

/-- The event a round trip `parseICalEvent ∘ createICalString` actually
recovers, as a function of the creation request: `uid` is preserved exactly;
`summary`, `start`, `end`, `allDay`, `location` and `description` are
reproduced (all-day times truncated to their date, empty-string optionals
coming back as absent); `status` comes back in uppercase; the organizer's
email and truthy name are reproduced; each attendee keeps email and truthy
name, with participation status reset to the serialized NEEDS-ACTION and the
input role / rsvp not read back; the recurrence rule's frequency (uppercased),
count, until and byDay (uppercased) are reproduced with interval only when
greater than 1; `url`, `categories`, `priority`, `transparency` and
`reminders` are serialized but never read back (always absent in the parse). -/
def expectedRoundTrip (p : CreateEventParams) (uid url : String) : CalendarEvent :=
  let allDay := p.allDay.getD false
  { uid := uid
    url := url
    summary := p.summary
    start := if allDay then ⟨p.start.year, p.start.month, p.start.day, 0, 0, 0⟩ else p.start
    «end» := p.«end».map (fun e =>
      if allDay then (⟨e.year, e.month, e.day, 0, 0, 0⟩ : JSDate) else e)
    location := if truthyStr p.location then p.location else none
    description := if truthyStr p.description then p.description else none
    allDay := allDay
    status := p.status.map jsToUpper
    organizer := p.organizer.map (fun o =>
      { email := o.email, name := if truthyStr o.name then o.name else none })
    attendees :=
      match p.attendees with
      | some atts => if atts.length > 0 then some (atts.map expectedAttendee) else none
      | none => none
    recurrence := p.recurrence.map (fun rp =>
      { frequency := jsToUpper rp.frequency
        humanReadable := formatRecurrenceHumanReadable (buildRRule rp)
        interval :=
          match rp.interval with
          | some i => if i > 1 then some i else none
          | none => none
        count :=
          match rp.count with
          | some c => if c != 0 then some c else none
          | none => none
        «until» := rp.«until»
        byDay :=
          match rp.byDay with
          | some ds => if ds.length > 0 then some (ds.map jsToUpper) else none
          | none => none })
    categories := none
    priority := none
    transparency := none
    eventUrl := none
    reminders := none }

/-- C1 (amended): parsing the document produced by `createICalString`
succeeds for every creation request with a non-empty uid and (TypeScript
union typed) status and recurrence frequency, and recovers exactly
`expectedRoundTrip`: uid preserved exactly; summary / start / end / allDay /
location / description / organizer / attendees (email, truthy name, reset
participation status) / recurrence (with the interval caveat) reproduced;
status uppercased; url, categories, priority, transparency, reminders and
attendee role / rsvp serialized but not recovered. -/
theorem C1_round_trip (p : CreateEventParams) (uid : String) (now : ICalTime) (url : String)
    (hu : uid ≠ "")
    (hst : p.status = none ∨ p.status = some "confirmed" ∨ p.status = some "tentative" ∨
      p.status = some "cancelled")
    (hfr : ∀ rp, p.recurrence = some rp → rp.frequency = "daily" ∨ rp.frequency = "weekly" ∨
      rp.frequency = "monthly" ∨ rp.frequency = "yearly") :
    parseICalEventComp (createICalString p uid now).1 url = some (expectedRoundTrip p uid url) ∧
    (createICalString p uid now).2 = uid := by
  refine ⟨?_, rfl⟩
  have h1 : (createICalString p uid now).1 =
      ICalComponent.mk "vcalendar" vcalPropsNF
        [ICalComponent.mk "vevent" (createPropsNF p uid now) (segValarms p)] := by
    rw [createICalString_eq, createVevent_eq]
  rw [h1]
  have hsub : (ICalComponent.mk "vcalendar" vcalPropsNF
      [ICalComponent.mk "vevent" (createPropsNF p uid now) (segValarms p)]).getFirstSubcomponent
        "vevent" =
      some (ICalComponent.mk "vevent" (createPropsNF p uid now) (segValarms p)) := rfl
  simp only [parseICalEventComp, hsub, lookup_uid, lookup_summary, lookup_dtstart, lookup_dtend,
    lookup_location, lookup_description, lookup_status, lookup_organizer, lookup_rrule,
    lookup_attendees, hu, beq_iff_eq, if_neg, ite_false]
  unfold expectedRoundTrip
  simp only [Option.some.injEq, CalendarEvent.mk.injEq, eq_self_iff_true, true_and, and_true]
  refine ⟨?_, ?_, ?_, ?_, ?_, ?_, ?_, ?_, ?_⟩
  · unfold createStartTime
    cases hA : p.allDay with
    | none => rfl
    | some b => cases b <;> rfl
  · cases hE : p.«end» with
    | none => rfl
    | some e =>
      unfold createEndTime
      cases hA : p.allDay with
      | none => rfl
      | some b => cases b <;> rfl
  · cases hL : p.location with
    | none => rfl
    | some s => by_cases hs : (s != "") = true <;> simp [truthyStr, hs]
  · cases hD : p.description with
    | none => rfl
    | some s => by_cases hs : (s != "") = true <;> simp [truthyStr, hs]
  · unfold createStartTime
    cases hA : p.allDay with
    | none => rfl
    | some b => cases b <;> rfl
  · rcases hst with h | h | h | h <;> rw [h] <;> rfl
  · cases hO : p.organizer with
    | none => rfl
    | some o => exact congrArg some (parse_mk_organizer o)
  · unfold segAttendees
    cases hA2 : p.attendees with
    | none => rfl
    | some atts =>
      by_cases hl : atts.length > 0
      · simp only [if_pos hl, List.length_map, List.map_map]
        exact congrArg some (List.map_congr_left fun a _ => parse_mk_attendee a)
      · simp [if_neg hl, List.length_map, hl]
  · cases hR : p.recurrence with
    | none => rfl
    | some rp =>
      have hfreq := hfr rp hR
      have hg : (jsToUpper rp.frequency != "") = true := by
        rcases hfreq with h | h | h | h <;> rw [h] <;> rfl
      simp only [Option.map_some']
      rw [buildRRule_eq]
      simp only [hg, eq_self_iff_true, if_true, Option.some.injEq, RecurrenceInfo.mk.injEq]
      exact ⟨trivial, recur_interval_eq rp, recur_count_eq rp, recur_until_eq rp,
        recur_byday_eq rp, trivial⟩

/-- Concrete creation request carrying categories, used against C1. -/
def c1Params : CreateEventParams :=
  { summary := "Tagged Event", start := ⟨2024, 12, 4, 10, 0, 0⟩
    «end» := none, allDay := none, location := none, description := none
    recurrence := none, attendees := none, organizer := none, status := none
    url := none, categories := some ["Work"], priority := none, transparency := none
    reminders := none }

/-- C1 counterexample: the claim includes `categories` (and url, priority,
transparency, reminders, attendee role / rsvp) among the fields reproduced by
the round trip, but `parseICalEvent` never reads CATEGORIES back: for a
request with categories `["Work"]`, the parsed event has no categories. -/
theorem C1_counterexample :
    c1Params.categories = some ["Work"] ∧
    (parseICalEventComp (createICalString c1Params "u-c1" ⟨2024, 12, 4, 9, 0, 0, false⟩).1
        "url-c1").map (fun ev => ev.categories) = some none :=
  ⟨rfl, rfl⟩

/-- Full-featured concrete creation request for the C1 witness. -/
def c1WitnessParams : CreateEventParams :=
  { summary := "Team Sync"
    start := ⟨2025, 12, 15, 10, 0, 0⟩
    «end» := some ⟨2025, 12, 15, 11, 0, 0⟩
    allDay := none
    location := some "Conference Room A"
    description := some "Weekly team sync"
    recurrence := some
      { frequency := "weekly"
        interval := some 2
        count := some 5
        «until» := none
        byDay := some ["MO", "WE"] }
    attendees := some
      [{ email := "bob@example.com", name := some "Bob", rsvp := some true
         role := some "chair" }]
    organizer := some { email := "alice@example.com", name := some "Alice" }
    status := some "confirmed"
    url := some "https://example.com/meet"
    categories := some ["Work"]
    priority := some 1
    transparency := some "opaque"
    reminders := some [{ minutes := some 15, hours := none, days := none, action := none }] }

theorem C1_round_trip_witness :
    parseICalEventComp (createICalString c1WitnessParams "u-w1" ⟨2025, 12, 1, 0, 0, 0, false⟩).1
        "url-w1" = some (expectedRoundTrip c1WitnessParams "u-w1" "url-w1") ∧
    (createICalString c1WitnessParams "u-w1" ⟨2025, 12, 1, 0, 0, 0, false⟩).2 = "u-w1" :=
  C1_round_trip c1WitnessParams "u-w1" ⟨2025, 12, 1, 0, 0, 0, false⟩ "url-w1"
    (by decide)
    (by right; left; rfl)
    (by
      intro rp h
      rw [show c1WitnessParams.recurrence =
        some { frequency := "weekly"
               interval := some 2
               count := some 5
               «until» := none
               byDay := some ["MO", "WE"] } from rfl] at h
      injection h with h2
      subst h2
      right; left; rfl)

/-! ### `updateICalString` (source lines 701-867), split into its blocks -/

/-- Block `if (updates.summary !== undefined)` (source lines 714-716). -/
def updSummary (u : UpdateEventParams) (v : ICalComponent) : ICalComponent :=
  match u.summary with
  | some s => v.updatePropertyWithValue "summary" (.str s)
  | none => v

/-- Blocks for DTSTART and the allDay-only in-place flip (source lines
718-736): a new start replaces DTSTART (date-only when the patch's `allDay`
is truthy); otherwise, when only `allDay` is present, the existing DTSTART
value's `isDate` flag is set in place (`currentTime.isDate = updates.allDay;
dtstart.setValue(currentTime)`), skipped when the property or its value is
missing. -/
def updStart (u : UpdateEventParams) (v : ICalComponent) : ICalComponent :=
  match u.start with
  | some d =>
    let startTime := ICalTime.fromJSDate d
    let startTime := if u.allDay.getD false then startTime.setIsDate true else startTime
    v.updatePropertyWithValue "dtstart" (.time startTime)
  | none =>
    match u.allDay with
    | some b =>
      match v.getFirstProp? "dtstart" with
      | some _ =>
        .mk v.name
          (mapFirstPropValue v.props "dtstart" (fun val =>
            match val with
            | .time t => .time (t.setIsDate b)
            | w => w))
          v.subs
      | none => v
    | none => v

/-- Block `if (updates.end !== undefined)` (source lines 739-745). -/
def updEnd (u : UpdateEventParams) (v : ICalComponent) : ICalComponent :=
  match u.«end» with
  | some d =>
    let endTime := ICalTime.fromJSDate d
    let endTime := if u.allDay.getD false then endTime.setIsDate true else endTime
    v.updatePropertyWithValue "dtend" (.time endTime)
  | none => v

/-- Block for LOCATION (source lines 748-754): empty string removes, other
strings replace. -/
def updLocation (u : UpdateEventParams) (v : ICalComponent) : ICalComponent :=
  match u.location with
  | some s =>
    if s == "" then v.removeProperty "location"
    else v.updatePropertyWithValue "location" (.str s)
  | none => v

/-- Block for DESCRIPTION (source lines 757-763). -/
def updDescription (u : UpdateEventParams) (v : ICalComponent) : ICalComponent :=
  match u.description with
  | some s =>
    if s == "" then v.removeProperty "description"
    else v.updatePropertyWithValue "description" (.str s)
  | none => v

/-- Block for STATUS (source lines 766-772): empty string removes, other
values replace uppercased. -/
def updStatus (u : UpdateEventParams) (v : ICalComponent) : ICalComponent :=
  match u.status with
  | some s =>
    if s == "" then v.removeProperty "status"
    else v.updatePropertyWithValue "status" (.str (jsToUpper s))
  | none => v

/-- Block for URL (source lines 775-781). -/
def updUrl (u : UpdateEventParams) (v : ICalComponent) : ICalComponent :=
  match u.url with
  | some s =>
    if s == "" then v.removeProperty "url"
    else v.updatePropertyWithValue "url" (.str s)
  | none => v

/-- Block for CATEGORIES (source lines 784-789): always removed first, then
re-added joined when non-empty. -/
def updCategories (u : UpdateEventParams) (v : ICalComponent) : ICalComponent :=
  match u.categories with
  | some cats =>
    let v := v.removeProperty "categories"
    if cats.length > 0 then
      v.updatePropertyWithValue "categories" (.str (String.intercalate "," cats))
    else v
  | none => v

/-- Block for PRIORITY (source lines 792-798): explicit null removes, a 1-9
value replaces, out-of-range is ignored. -/
def updPriority (u : UpdateEventParams) (v : ICalComponent) : ICalComponent :=
  match u.priority with
  | some none => v.removeProperty "priority"
  | some (some n) =>
    if 1 ≤ n ∧ n ≤ 9 then v.updatePropertyWithValue "priority" (.int n) else v
  | none => v

/-- Block for TRANSP (source lines 801-807). -/
def updTransparency (u : UpdateEventParams) (v : ICalComponent) : ICalComponent :=
  match u.transparency with
  | some s =>
    if s == "" then v.removeProperty "transp"
    else v.updatePropertyWithValue "transp" (.str (jsToUpper s))
  | none => v

/-- Block for ORGANIZER (source lines 810-818): remove then re-add. -/
def updOrganizer (u : UpdateEventParams) (v : ICalComponent) : ICalComponent :=
  match u.organizer with
  | some o => (v.removeProperty "organizer").addProperty (mkOrganizerProp o)
  | none => v

/-- Block for attendees (source lines 821-838): remove all, then re-add each
with the same builder as creation. -/
def updAttendees (u : UpdateEventParams) (v : ICalComponent) : ICalComponent :=
  match u.attendees with
  | some atts =>
    atts.foldl (fun acc a => acc.addProperty (mkAttendeeProp a))
      (v.removeAllProperties "attendee")
  | none => v

/-- Block for reminders (source lines 841-861): every VALARM is removed, then
one is appended per reminder, with the DISPLAY description taken from the
(possibly just updated) summary, `?? "Event"` when absent. -/
def updReminders (u : UpdateEventParams) (v : ICalComponent) : ICalComponent :=
  match u.reminders with
  | some rs =>
    let v := v.removeSubcomponentsNamed "valarm"
    let summary : String :=
      match v.getFirstPropertyValue "summary" with
      | some (.str s) => s
      | _ => "Event"
    rs.foldl (fun acc r => acc.addSubcomponent (mkValarm summary r)) v
  | none => v

/-- The full per-event update pipeline of `updateICalString` (source lines
713-864), ending with the unconditional DTSTAMP rewrite (line 864). -/
def applyEventUpdates (u : UpdateEventParams) (now : ICalTime)
    (vevent : ICalComponent) : ICalComponent :=
  let vevent := updSummary u vevent
  let vevent := updStart u vevent
  let vevent := updEnd u vevent
  let vevent := updLocation u vevent
  let vevent := updDescription u vevent
  let vevent := updStatus u vevent
  let vevent := updUrl u vevent
  let vevent := updCategories u vevent
  let vevent := updPriority u vevent
  let vevent := updTransparency u vevent
  let vevent := updOrganizer u vevent
  let vevent := updAttendees u vevent
  let vevent := updReminders u vevent
  vevent.updatePropertyWithValue "dtstamp" (.time now)

/-- Function `updateICalString` (source lines 701-867): parses the document
(text layer elided as for `parseICalEvent`), throws when no VEVENT is found
(lines 709-711, modelled as `Except.error`), otherwise mutates the first
VEVENT in place and re-serializes. -/
def updateICalString (vcalendar : ICalComponent) (updates : UpdateEventParams)
    (now : ICalTime) : Except String ICalComponent :=
  match vcalendar.getFirstSubcomponent "vevent" with
  | none => .error "No VEVENT found in iCal string"
  | some vevent =>
    .ok (.mk vcalendar.name vcalendar.props
      (replaceFirstSub vcalendar.subs "vevent" (applyEventUpdates updates now vevent)))

/-! ### Frame lemmas: which property lists each operation can touch -/

theorem filter_setFirstPropValue (ps : List ICalProp) (nm nm' : String) (v : PropValue)
    (h : nm' ≠ nm) :
    (setFirstPropValue ps nm v).filter (fun q => q.name == nm') =
      ps.filter (fun q => q.name == nm') := by
  induction ps with
  | nil => rfl
  | cons q qs ih =>
    unfold setFirstPropValue
    by_cases hq : (q.name == nm) = true
    · rw [if_pos hq]
      have hqn : q.name = nm := by simpa using hq
      have hne : (q.name == nm') = false := by simp [hqn]; exact fun hc => h hc.symm
      simp [List.filter_cons, hne]
    · rw [if_neg hq]
      simp only [List.filter_cons]
      rw [ih]

theorem filter_removeFirstProp (ps : List ICalProp) (nm nm' : String) (h : nm' ≠ nm) :
    (removeFirstProp ps nm).filter (fun q => q.name == nm') =
      ps.filter (fun q => q.name == nm') := by
  induction ps with
  | nil => rfl
  | cons q qs ih =>
    unfold removeFirstProp
    by_cases hq : (q.name == nm) = true
    · rw [if_pos hq]
      have hqn : q.name = nm := by simpa using hq
      have hne : (q.name == nm') = false := by simp [hqn]; exact fun hc => h hc.symm
      simp [List.filter_cons, hne]
    · rw [if_neg hq]
      simp only [List.filter_cons]
      rw [ih]

theorem filter_mapFirstPropValue (ps : List ICalProp) (nm nm' : String)
    (f : PropValue → PropValue) (h : nm' ≠ nm) :
    (mapFirstPropValue ps nm f).filter (fun q => q.name == nm') =
      ps.filter (fun q => q.name == nm') := by
  induction ps with
  | nil => rfl
  | cons q qs ih =>
    unfold mapFirstPropValue
    by_cases hq : (q.name == nm) = true
    · rw [if_pos hq]
      have hqn : q.name = nm := by simpa using hq
      have hne : (q.name == nm') = false := by simp [hqn]; exact fun hc => h hc.symm
      simp [List.filter_cons, hne]
    · rw [if_neg hq]
      simp only [List.filter_cons]
      rw [ih]

theorem getAllProps_updateProp_ne (c : ICalComponent) (nm nm' : String) (v : PropValue)
    (h : nm' ≠ nm) :
    (c.updatePropertyWithValue nm v).getAllProperties nm' = c.getAllProperties nm' := by
  unfold ICalComponent.updatePropertyWithValue ICalComponent.addProperty
    ICalComponent.getAllProperties
  split
  · simp only [ICalComponent.props_mk]
    exact filter_setFirstPropValue _ _ _ _ h
  · simp only [ICalComponent.props_mk, List.filter_append]
    have : (ICalProp.mk nm [] (some v)).name = nm := rfl
    simp [List.filter_cons, this]
    exact fun hc => h hc.symm

theorem getAllProps_removeProperty_ne (c : ICalComponent) (nm nm' : String) (h : nm' ≠ nm) :
    (c.removeProperty nm).getAllProperties nm' = c.getAllProperties nm' := by
  unfold ICalComponent.removeProperty ICalComponent.getAllProperties
  simp only [ICalComponent.props_mk]
  exact filter_removeFirstProp _ _ _ h

theorem getAllProps_removeAll_ne (c : ICalComponent) (nm nm' : String) (h : nm' ≠ nm) :
    (c.removeAllProperties nm).getAllProperties nm' = c.getAllProperties nm' := by
  unfold ICalComponent.removeAllProperties ICalComponent.getAllProperties
  simp only [ICalComponent.props_mk, List.filter_filter]
  apply List.filter_congr
  intro q _
  by_cases hq : (q.name == nm') = true
  · have hqn : q.name = nm' := by simpa using hq
    simp [hqn, h]
  · simp only [hq, Bool.false_and]

theorem getAllProps_addProperty_ne (c : ICalComponent) (q : ICalProp) (nm' : String)
    (h : q.name ≠ nm') :
    (c.addProperty q).getAllProperties nm' = c.getAllProperties nm' := by
  unfold ICalComponent.addProperty ICalComponent.getAllProperties
  simp [List.filter_append, List.filter_cons, h]

theorem getAllProps_foldlAddAttendees_ne (atts : List AttendeeInput) (c : ICalComponent)
    (nm' : String) (h : nm' ≠ "attendee") :
    (atts.foldl (fun acc a => acc.addProperty (mkAttendeeProp a)) c).getAllProperties nm' =
      c.getAllProperties nm' := by
  rw [foldl_addProperty]
  unfold ICalComponent.getAllProperties
  simp only [ICalComponent.props_mk, List.filter_append]
  have : (atts.map mkAttendeeProp).filter (fun q => q.name == nm') = [] := by
    rw [List.filter_eq_nil_iff]
    intro q hq
    rcases List.mem_map.mp hq with ⟨a, _, rfl⟩
    simp [mkAttendeeProp_name]
    exact fun hc => h hc.symm
  simp [this]

theorem subs_updateProp (c : ICalComponent) (nm : String) (v : PropValue) :
    (c.updatePropertyWithValue nm v).subs = c.subs := by
  unfold ICalComponent.updatePropertyWithValue ICalComponent.addProperty
  split <;> simp

theorem name_updateProp (c : ICalComponent) (nm : String) (v : PropValue) :
    (c.updatePropertyWithValue nm v).name = c.name := updateProp_name c nm v

theorem subs_foldlAddProperty {α : Type} (f : α → ICalProp) (xs : List α)
    (c : ICalComponent) :
    (xs.foldl (fun acc a => acc.addProperty (f a)) c).subs = c.subs := by
  rw [foldl_addProperty]; rfl

/-! ### Per-block frame lemmas -/

theorem updSummary_frame (u : UpdateEventParams) (v : ICalComponent) (nm : String)
    (h : u.summary = none ∨ nm ≠ "summary") :
    (updSummary u v).getAllProperties nm = v.getAllProperties nm := by
  unfold updSummary
  cases hs : u.summary with
  | none => rfl
  | some s =>
    have hne : nm ≠ "summary" := by
      rcases h with h | h
      · rw [hs] at h; cases h
      · exact h
    exact getAllProps_updateProp_ne _ _ _ _ hne

theorem updSummary_subs (u : UpdateEventParams) (v : ICalComponent) :
    (updSummary u v).subs = v.subs := by
  unfold updSummary; cases hs : u.summary <;> simp [subs_updateProp]

theorem updSummary_name (u : UpdateEventParams) (v : ICalComponent) :
    (updSummary u v).name = v.name := by
  unfold updSummary; cases hs : u.summary <;> simp [updateProp_name]

theorem updLocation_frame (u : UpdateEventParams) (v : ICalComponent) (nm : String)
    (h : u.location = none ∨ nm ≠ "location") :
    (updLocation u v).getAllProperties nm = v.getAllProperties nm := by
  unfold updLocation
  cases hs : u.location with
  | none => rfl
  | some s =>
    have hne : nm ≠ "location" := by
      rcases h with h | h
      · rw [hs] at h; cases h
      · exact h
    show (if (s == "") = true then v.removeProperty "location"
        else v.updatePropertyWithValue "location" (.str s)).getAllProperties nm =
      v.getAllProperties nm
    split
    · exact getAllProps_removeProperty_ne _ _ _ hne
    · exact getAllProps_updateProp_ne _ _ _ _ hne

theorem updLocation_subs (u : UpdateEventParams) (v : ICalComponent) :
    (updLocation u v).subs = v.subs := by
  unfold updLocation
  cases hs : u.location with
  | none => rfl
  | some s =>
    show (if (s == "") = true then v.removeProperty "location"
        else v.updatePropertyWithValue "location" (.str s)).subs = v.subs
    split <;> simp [subs_updateProp, ICalComponent.removeProperty]

theorem updLocation_name (u : UpdateEventParams) (v : ICalComponent) :
    (updLocation u v).name = v.name := by
  unfold updLocation
  cases hs : u.location with
  | none => rfl
  | some s =>
    show (if (s == "") = true then v.removeProperty "location"
        else v.updatePropertyWithValue "location" (.str s)).name = v.name
    split <;> simp [updateProp_name, ICalComponent.removeProperty]

theorem updDescription_frame (u : UpdateEventParams) (v : ICalComponent) (nm : String)
    (h : u.description = none ∨ nm ≠ "description") :
    (updDescription u v).getAllProperties nm = v.getAllProperties nm := by
  unfold updDescription
  cases hs : u.description with
  | none => rfl
  | some s =>
    have hne : nm ≠ "description" := by
      rcases h with h | h
      · rw [hs] at h; cases h
      · exact h
    show (if (s == "") = true then v.removeProperty "description"
        else v.updatePropertyWithValue "description" (.str s)).getAllProperties nm =
      v.getAllProperties nm
    split
    · exact getAllProps_removeProperty_ne _ _ _ hne
    · exact getAllProps_updateProp_ne _ _ _ _ hne

theorem updDescription_subs (u : UpdateEventParams) (v : ICalComponent) :
    (updDescription u v).subs = v.subs := by
  unfold updDescription
  cases hs : u.description with
  | none => rfl
  | some s =>
    show (if (s == "") = true then v.removeProperty "description"
        else v.updatePropertyWithValue "description" (.str s)).subs = v.subs
    split <;> simp [subs_updateProp, ICalComponent.removeProperty]

theorem updDescription_name (u : UpdateEventParams) (v : ICalComponent) :
    (updDescription u v).name = v.name := by
  unfold updDescription
  cases hs : u.description with
  | none => rfl
  | some s =>
    show (if (s == "") = true then v.removeProperty "description"
        else v.updatePropertyWithValue "description" (.str s)).name = v.name
    split <;> simp [updateProp_name, ICalComponent.removeProperty]

theorem updStatus_frame (u : UpdateEventParams) (v : ICalComponent) (nm : String)
    (h : u.status = none ∨ nm ≠ "status") :
    (updStatus u v).getAllProperties nm = v.getAllProperties nm := by
  unfold updStatus
  cases hs : u.status with
  | none => rfl
  | some s =>
    have hne : nm ≠ "status" := by
      rcases h with h | h
      · rw [hs] at h; cases h
      · exact h
    show (if (s == "") = true then v.removeProperty "status"
        else v.updatePropertyWithValue "status" (.str (jsToUpper s))).getAllProperties nm =
      v.getAllProperties nm
    split
    · exact getAllProps_removeProperty_ne _ _ _ hne
    · exact getAllProps_updateProp_ne _ _ _ _ hne

theorem updStatus_subs (u : UpdateEventParams) (v : ICalComponent) :
    (updStatus u v).subs = v.subs := by
  unfold updStatus
  cases hs : u.status with
  | none => rfl
  | some s =>
    show (if (s == "") = true then v.removeProperty "status"
        else v.updatePropertyWithValue "status" (.str (jsToUpper s))).subs = v.subs
    split <;> simp [subs_updateProp, ICalComponent.removeProperty]

theorem updStatus_name (u : UpdateEventParams) (v : ICalComponent) :
    (updStatus u v).name = v.name := by
  unfold updStatus
  cases hs : u.status with
  | none => rfl
  | some s =>
    show (if (s == "") = true then v.removeProperty "status"
        else v.updatePropertyWithValue "status" (.str (jsToUpper s))).name = v.name
    split <;> simp [updateProp_name, ICalComponent.removeProperty]

theorem updUrl_frame (u : UpdateEventParams) (v : ICalComponent) (nm : String)
    (h : u.url = none ∨ nm ≠ "url") :
    (updUrl u v).getAllProperties nm = v.getAllProperties nm := by
  unfold updUrl
  cases hs : u.url with
  | none => rfl
  | some s =>
    have hne : nm ≠ "url" := by
      rcases h with h | h
      · rw [hs] at h; cases h
      · exact h
    show (if (s == "") = true then v.removeProperty "url"
        else v.updatePropertyWithValue "url" (.str s)).getAllProperties nm =
      v.getAllProperties nm
    split
    · exact getAllProps_removeProperty_ne _ _ _ hne
    · exact getAllProps_updateProp_ne _ _ _ _ hne

theorem updUrl_subs (u : UpdateEventParams) (v : ICalComponent) :
    (updUrl u v).subs = v.subs := by
  unfold updUrl
  cases hs : u.url with
  | none => rfl
  | some s =>
    show (if (s == "") = true then v.removeProperty "url"
        else v.updatePropertyWithValue "url" (.str s)).subs = v.subs
    split <;> simp [subs_updateProp, ICalComponent.removeProperty]

theorem updUrl_name (u : UpdateEventParams) (v : ICalComponent) :
    (updUrl u v).name = v.name := by
  unfold updUrl
  cases hs : u.url with
  | none => rfl
  | some s =>
    show (if (s == "") = true then v.removeProperty "url"
        else v.updatePropertyWithValue "url" (.str s)).name = v.name
    split <;> simp [updateProp_name, ICalComponent.removeProperty]

theorem updTransparency_frame (u : UpdateEventParams) (v : ICalComponent) (nm : String)
    (h : u.transparency = none ∨ nm ≠ "transp") :
    (updTransparency u v).getAllProperties nm = v.getAllProperties nm := by
  unfold updTransparency
  cases hs : u.transparency with
  | none => rfl
  | some s =>
    have hne : nm ≠ "transp" := by
      rcases h with h | h
      · rw [hs] at h; cases h
      · exact h
    show (if (s == "") = true then v.removeProperty "transp"
        else v.updatePropertyWithValue "transp" (.str (jsToUpper s))).getAllProperties nm =
      v.getAllProperties nm
    split
    · exact getAllProps_removeProperty_ne _ _ _ hne
    · exact getAllProps_updateProp_ne _ _ _ _ hne

theorem updTransparency_subs (u : UpdateEventParams) (v : ICalComponent) :
    (updTransparency u v).subs = v.subs := by
  unfold updTransparency
  cases hs : u.transparency with
  | none => rfl
  | some s =>
    show (if (s == "") = true then v.removeProperty "transp"
        else v.updatePropertyWithValue "transp" (.str (jsToUpper s))).subs = v.subs
    split <;> simp [subs_updateProp, ICalComponent.removeProperty]

theorem updTransparency_name (u : UpdateEventParams) (v : ICalComponent) :
    (updTransparency u v).name = v.name := by
  unfold updTransparency
  cases hs : u.transparency with
  | none => rfl
  | some s =>
    show (if (s == "") = true then v.removeProperty "transp"
        else v.updatePropertyWithValue "transp" (.str (jsToUpper s))).name = v.name
    split <;> simp [updateProp_name, ICalComponent.removeProperty]

theorem updStart_frame (u : UpdateEventParams) (v : ICalComponent) (nm : String)
    (h : (u.start = none ∧ u.allDay = none) ∨ nm ≠ "dtstart") :
    (updStart u v).getAllProperties nm = v.getAllProperties nm := by
  unfold updStart
  cases hs : u.start with
  | some d =>
    have hne : nm ≠ "dtstart" := by
      rcases h with ⟨h1, _⟩ | h
      · rw [hs] at h1; cases h1
      · exact h
    exact getAllProps_updateProp_ne _ _ _ _ hne
  | none =>
    cases ha : u.allDay with
    | none => rfl
    | some b =>
      have hne : nm ≠ "dtstart" := by
        rcases h with ⟨_, h2⟩ | h
        · rw [ha] at h2; cases h2
        · exact h
      cases h3 : v.getFirstProp? "dtstart" with
      | none => rfl
      | some pr =>
        show (ICalComponent.mk v.name
            (mapFirstPropValue v.props "dtstart" (fun val =>
              match val with
              | .time t => .time (t.setIsDate b)
              | w => w)) v.subs).getAllProperties nm = v.getAllProperties nm
        unfold ICalComponent.getAllProperties
        simp only [ICalComponent.props_mk]
        exact filter_mapFirstPropValue _ _ _ _ hne

theorem updStart_subs (u : UpdateEventParams) (v : ICalComponent) :
    (updStart u v).subs = v.subs := by
  unfold updStart
  cases hs : u.start with
  | some d => simp [subs_updateProp]
  | none =>
    cases ha : u.allDay with
    | none => rfl
    | some b => cases h3 : v.getFirstProp? "dtstart" <;> rfl

theorem updStart_name (u : UpdateEventParams) (v : ICalComponent) :
    (updStart u v).name = v.name := by
  unfold updStart
  cases hs : u.start with
  | some d => simp [updateProp_name]
  | none =>
    cases ha : u.allDay with
    | none => rfl
    | some b => cases h3 : v.getFirstProp? "dtstart" <;> rfl

theorem updEnd_frame (u : UpdateEventParams) (v : ICalComponent) (nm : String)
    (h : u.«end» = none ∨ nm ≠ "dtend") :
    (updEnd u v).getAllProperties nm = v.getAllProperties nm := by
  unfold updEnd
  cases hs : u.«end» with
  | none => rfl
  | some d =>
    have hne : nm ≠ "dtend" := by
      rcases h with h | h
      · rw [hs] at h; cases h
      · exact h
    exact getAllProps_updateProp_ne _ _ _ _ hne

theorem updEnd_subs (u : UpdateEventParams) (v : ICalComponent) :
    (updEnd u v).subs = v.subs := by
  unfold updEnd; cases hs : u.«end» <;> simp [subs_updateProp]

theorem updEnd_name (u : UpdateEventParams) (v : ICalComponent) :
    (updEnd u v).name = v.name := by
  unfold updEnd; cases hs : u.«end» <;> simp [updateProp_name]

theorem updCategories_frame (u : UpdateEventParams) (v : ICalComponent) (nm : String)
    (h : u.categories = none ∨ nm ≠ "categories") :
    (updCategories u v).getAllProperties nm = v.getAllProperties nm := by
  unfold updCategories
  cases hs : u.categories with
  | none => rfl
  | some cats =>
    have hne : nm ≠ "categories" := by
      rcases h with h | h
      · rw [hs] at h; cases h
      · exact h
    show (if cats.length > 0 then
        (v.removeProperty "categories").updatePropertyWithValue "categories"
          (.str (String.intercalate "," cats))
      else v.removeProperty "categories").getAllProperties nm = v.getAllProperties nm
    split
    · rw [getAllProps_updateProp_ne _ _ _ _ hne, getAllProps_removeProperty_ne _ _ _ hne]
    · exact getAllProps_removeProperty_ne _ _ _ hne

theorem updCategories_subs (u : UpdateEventParams) (v : ICalComponent) :
    (updCategories u v).subs = v.subs := by
  unfold updCategories
  cases hs : u.categories with
  | none => rfl
  | some cats =>
    show (if cats.length > 0 then
        (v.removeProperty "categories").updatePropertyWithValue "categories"
          (.str (String.intercalate "," cats))
      else v.removeProperty "categories").subs = v.subs
    split <;> simp [subs_updateProp, ICalComponent.removeProperty]

theorem updCategories_name (u : UpdateEventParams) (v : ICalComponent) :
    (updCategories u v).name = v.name := by
  unfold updCategories
  cases hs : u.categories with
  | none => rfl
  | some cats =>
    show (if cats.length > 0 then
        (v.removeProperty "categories").updatePropertyWithValue "categories"
          (.str (String.intercalate "," cats))
      else v.removeProperty "categories").name = v.name
    split <;> simp [updateProp_name, ICalComponent.removeProperty]

theorem updPriority_frame (u : UpdateEventParams) (v : ICalComponent) (nm : String)
    (h : u.priority = none ∨ nm ≠ "priority") :
    (updPriority u v).getAllProperties nm = v.getAllProperties nm := by
  unfold updPriority
  cases hs : u.priority with
  | none => rfl
  | some op =>
    have hne : nm ≠ "priority" := by
      rcases h with h | h
      · rw [hs] at h; cases h
      · exact h
    cases op with
    | none => exact getAllProps_removeProperty_ne _ _ _ hne
    | some n =>
      show (if 1 ≤ n ∧ n ≤ 9 then v.updatePropertyWithValue "priority" (.int n)
          else v).getAllProperties nm = v.getAllProperties nm
      split
      · exact getAllProps_updateProp_ne _ _ _ _ hne
      · rfl

theorem updPriority_subs (u : UpdateEventParams) (v : ICalComponent) :
    (updPriority u v).subs = v.subs := by
  unfold updPriority
  cases hs : u.priority with
  | none => rfl
  | some op =>
    cases op with
    | none => rfl
    | some n =>
      show (if 1 ≤ n ∧ n ≤ 9 then v.updatePropertyWithValue "priority" (.int n)
          else v).subs = v.subs
      split <;> simp [subs_updateProp]

theorem updPriority_name (u : UpdateEventParams) (v : ICalComponent) :
    (updPriority u v).name = v.name := by
  unfold updPriority
  cases hs : u.priority with
  | none => rfl
  | some op =>
    cases op with
    | none => rfl
    | some n =>
      show (if 1 ≤ n ∧ n ≤ 9 then v.updatePropertyWithValue "priority" (.int n)
          else v).name = v.name
      split <;> simp [updateProp_name]

theorem updOrganizer_frame (u : UpdateEventParams) (v : ICalComponent) (nm : String)
    (h : u.organizer = none ∨ nm ≠ "organizer") :
    (updOrganizer u v).getAllProperties nm = v.getAllProperties nm := by
  unfold updOrganizer
  cases hs : u.organizer with
  | none => rfl
  | some o =>
    have hne : nm ≠ "organizer" := by
      rcases h with h | h
      · rw [hs] at h; cases h
      · exact h
    rw [show (match some o with
        | some o => (v.removeProperty "organizer").addProperty (mkOrganizerProp o)
        | none => v) =
      (v.removeProperty "organizer").addProperty (mkOrganizerProp o) from rfl]
    rw [getAllProps_addProperty_ne _ _ _ (by rw [mkOrganizerProp_name]; exact hne.symm),
      getAllProps_removeProperty_ne _ _ _ hne]

theorem updOrganizer_subs (u : UpdateEventParams) (v : ICalComponent) :
    (updOrganizer u v).subs = v.subs := by
  unfold updOrganizer
  cases hs : u.organizer <;>
    simp [ICalComponent.addProperty, ICalComponent.removeProperty]

theorem updOrganizer_name (u : UpdateEventParams) (v : ICalComponent) :
    (updOrganizer u v).name = v.name := by
  unfold updOrganizer
  cases hs : u.organizer <;>
    simp [ICalComponent.addProperty, ICalComponent.removeProperty]

theorem updAttendees_frame (u : UpdateEventParams) (v : ICalComponent) (nm : String)
    (h : u.attendees = none ∨ nm ≠ "attendee") :
    (updAttendees u v).getAllProperties nm = v.getAllProperties nm := by
  unfold updAttendees
  cases hs : u.attendees with
  | none => rfl
  | some atts =>
    have hne : nm ≠ "attendee" := by
      rcases h with h | h
      · rw [hs] at h; cases h
      · exact h
    show (atts.foldl (fun acc a => acc.addProperty (mkAttendeeProp a))
        (v.removeAllProperties "attendee")).getAllProperties nm = v.getAllProperties nm
    rw [getAllProps_foldlAddAttendees_ne _ _ _ hne, getAllProps_removeAll_ne _ _ _ hne]

theorem updAttendees_subs (u : UpdateEventParams) (v : ICalComponent) :
    (updAttendees u v).subs = v.subs := by
  unfold updAttendees
  cases hs : u.attendees with
  | none => rfl
  | some atts =>
    show (atts.foldl (fun acc a => acc.addProperty (mkAttendeeProp a))
        (v.removeAllProperties "attendee")).subs = v.subs
    rw [subs_foldlAddProperty]; rfl

theorem updAttendees_name (u : UpdateEventParams) (v : ICalComponent) :
    (updAttendees u v).name = v.name := by
  unfold updAttendees
  cases hs : u.attendees with
  | none => rfl
  | some atts =>
    show (atts.foldl (fun acc a => acc.addProperty (mkAttendeeProp a))
        (v.removeAllProperties "attendee")).name = v.name
    rw [foldl_addProperty]; rfl

theorem updReminders_props (u : UpdateEventParams) (v : ICalComponent) (nm : String) :
    (updReminders u v).getAllProperties nm = v.getAllProperties nm := by
  unfold updReminders
  cases hs : u.reminders with
  | none => rfl
  | some rs =>
    show ((rs.foldl (fun acc r => acc.addSubcomponent
        (mkValarm (match (v.removeSubcomponentsNamed "valarm").getFirstPropertyValue "summary"
          with
          | some (.str s) => s
          | _ => "Event") r))
        (v.removeSubcomponentsNamed "valarm"))).getAllProperties nm =
      v.getAllProperties nm
    rw [foldl_addSubcomponent]
    rfl

theorem updReminders_subs_none (u : UpdateEventParams) (v : ICalComponent)
    (h : u.reminders = none) : (updReminders u v).subs = v.subs := by
  unfold updReminders; rw [h]

theorem updReminders_name (u : UpdateEventParams) (v : ICalComponent) :
    (updReminders u v).name = v.name := by
  unfold updReminders
  cases hs : u.reminders with
  | none => rfl
  | some rs =>
    show ((rs.foldl (fun acc r => acc.addSubcomponent
        (mkValarm (match (v.removeSubcomponentsNamed "valarm").getFirstPropertyValue "summary"
          with
          | some (.str s) => s
          | _ => "Event") r))
        (v.removeSubcomponentsNamed "valarm"))).name = v.name
    rw [foldl_addSubcomponent]
    rfl

/-! ### The patch frame -/

/-- The property names each patch field can modify (DTSTAMP, always
rewritten, is tracked separately). -/
def touchedNames (u : UpdateEventParams) : List String :=
  (if u.summary.isSome then ["summary"] else [])
    ++ (if u.start.isSome ∨ u.allDay.isSome then ["dtstart"] else [])
    ++ (if u.«end».isSome then ["dtend"] else [])
    ++ (if u.location.isSome then ["location"] else [])
    ++ (if u.description.isSome then ["description"] else [])
    ++ (if u.status.isSome then ["status"] else [])
    ++ (if u.url.isSome then ["url"] else [])
    ++ (if u.categories.isSome then ["categories"] else [])
    ++ (if u.priority.isSome then ["priority"] else [])
    ++ (if u.transparency.isSome then ["transp"] else [])
    ++ (if u.organizer.isSome then ["organizer"] else [])
    ++ (if u.attendees.isSome then ["attendee"] else [])

theorem mem_ite_singleton {b : Prop} [Decidable b] {x c : String}
    (h : x ∈ (if b then [c] else [])) : x = c := by
  split at h
  · simpa using h
  · simp at h

theorem not_touched_summary {u : UpdateEventParams} {nm : String}
    (h : nm ∉ touchedNames u) : u.summary = none ∨ nm ≠ "summary" := by
  cases hs : u.summary with
  | none => exact Or.inl rfl
  | some s =>
    right; intro hnm; subst hnm; apply h
    unfold touchedNames; simp [hs]

theorem not_touched_dtstart {u : UpdateEventParams} {nm : String}
    (h : nm ∉ touchedNames u) : (u.start = none ∧ u.allDay = none) ∨ nm ≠ "dtstart" := by
  cases hs : u.start with
  | some d =>
    right; intro hnm; subst hnm; apply h
    unfold touchedNames; simp [hs]
  | none =>
    cases ha : u.allDay with
    | none => exact Or.inl ⟨rfl, rfl⟩
    | some b =>
      right; intro hnm; subst hnm; apply h
      unfold touchedNames; simp [ha]

theorem not_touched_dtend {u : UpdateEventParams} {nm : String}
    (h : nm ∉ touchedNames u) : u.«end» = none ∨ nm ≠ "dtend" := by
  cases hs : u.«end» with
  | none => exact Or.inl rfl
  | some d =>
    right; intro hnm; subst hnm; apply h
    unfold touchedNames; simp [hs]

theorem not_touched_location {u : UpdateEventParams} {nm : String}
    (h : nm ∉ touchedNames u) : u.location = none ∨ nm ≠ "location" := by
  cases hs : u.location with
  | none => exact Or.inl rfl
  | some s =>
    right; intro hnm; subst hnm; apply h
    unfold touchedNames; simp [hs]

theorem not_touched_description {u : UpdateEventParams} {nm : String}
    (h : nm ∉ touchedNames u) : u.description = none ∨ nm ≠ "description" := by
  cases hs : u.description with
  | none => exact Or.inl rfl
  | some s =>
    right; intro hnm; subst hnm; apply h
    unfold touchedNames; simp [hs]

theorem not_touched_status {u : UpdateEventParams} {nm : String}
    (h : nm ∉ touchedNames u) : u.status = none ∨ nm ≠ "status" := by
  cases hs : u.status with
  | none => exact Or.inl rfl
  | some s =>
    right; intro hnm; subst hnm; apply h
    unfold touchedNames; simp [hs]

theorem not_touched_url {u : UpdateEventParams} {nm : String}
    (h : nm ∉ touchedNames u) : u.url = none ∨ nm ≠ "url" := by
  cases hs : u.url with
  | none => exact Or.inl rfl
  | some s =>
    right; intro hnm; subst hnm; apply h
    unfold touchedNames; simp [hs]

theorem not_touched_categories {u : UpdateEventParams} {nm : String}
    (h : nm ∉ touchedNames u) : u.categories = none ∨ nm ≠ "categories" := by
  cases hs : u.categories with
  | none => exact Or.inl rfl
  | some s =>
    right; intro hnm; subst hnm; apply h
    unfold touchedNames; simp [hs]

theorem not_touched_priority {u : UpdateEventParams} {nm : String}
    (h : nm ∉ touchedNames u) : u.priority = none ∨ nm ≠ "priority" := by
  cases hs : u.priority with
  | none => exact Or.inl rfl
  | some s =>
    right; intro hnm; subst hnm; apply h
    unfold touchedNames; simp [hs]

theorem not_touched_transp {u : UpdateEventParams} {nm : String}
    (h : nm ∉ touchedNames u) : u.transparency = none ∨ nm ≠ "transp" := by
  cases hs : u.transparency with
  | none => exact Or.inl rfl
  | some s =>
    right; intro hnm; subst hnm; apply h
    unfold touchedNames; simp [hs]

theorem not_touched_organizer {u : UpdateEventParams} {nm : String}
    (h : nm ∉ touchedNames u) : u.organizer = none ∨ nm ≠ "organizer" := by
  cases hs : u.organizer with
  | none => exact Or.inl rfl
  | some s =>
    right; intro hnm; subst hnm; apply h
    unfold touchedNames; simp [hs]

theorem not_touched_attendee {u : UpdateEventParams} {nm : String}
    (h : nm ∉ touchedNames u) : u.attendees = none ∨ nm ≠ "attendee" := by
  cases hs : u.attendees with
  | none => exact Or.inl rfl
  | some s =>
    right; intro hnm; subst hnm; apply h
    unfold touchedNames; simp [hs]

theorem uid_not_in_touched (u : UpdateEventParams) : "uid" ∉ touchedNames u := by
  intro h
  simp only [touchedNames, List.mem_append] at h
  rcases h with ((((((((((h | h) | h) | h) | h) | h) | h) | h) | h) | h) | h) | h <;>
    exact absurd (mem_ite_singleton h) (by decide)

/-- Frame of the whole update pipeline: any property name the patch does not
touch (and that is not DTSTAMP) keeps exactly its property list. -/
theorem applyEventUpdates_frame (u : UpdateEventParams) (now : ICalTime)
    (ve : ICalComponent) (nm : String) (hnm : nm ∉ touchedNames u)
    (hstamp : nm ≠ "dtstamp") :
    (applyEventUpdates u now ve).getAllProperties nm = ve.getAllProperties nm := by
  show ((updReminders u (updAttendees u (updOrganizer u (updTransparency u (updPriority u
      (updCategories u (updUrl u (updStatus u (updDescription u (updLocation u (updEnd u
      (updStart u (updSummary u ve))))))))))))).updatePropertyWithValue "dtstamp"
      (.time now)).getAllProperties nm = ve.getAllProperties nm
  rw [getAllProps_updateProp_ne _ _ _ _ hstamp,
    updReminders_props, updAttendees_frame _ _ _ (not_touched_attendee hnm),
    updOrganizer_frame _ _ _ (not_touched_organizer hnm),
    updTransparency_frame _ _ _ (not_touched_transp hnm),
    updPriority_frame _ _ _ (not_touched_priority hnm),
    updCategories_frame _ _ _ (not_touched_categories hnm),
    updUrl_frame _ _ _ (not_touched_url hnm),
    updStatus_frame _ _ _ (not_touched_status hnm),
    updDescription_frame _ _ _ (not_touched_description hnm),
    updLocation_frame _ _ _ (not_touched_location hnm),
    updEnd_frame _ _ _ (not_touched_dtend hnm),
    updStart_frame _ _ _ (not_touched_dtstart hnm),
    updSummary_frame _ _ _ (not_touched_summary hnm)]

/-- When the patch does not set reminders, the subcomponent list (the VALARM
blocks) is untouched. -/
theorem applyEventUpdates_subs (u : UpdateEventParams) (now : ICalTime)
    (ve : ICalComponent) (h : u.reminders = none) :
    (applyEventUpdates u now ve).subs = ve.subs := by
  show ((updReminders u (updAttendees u (updOrganizer u (updTransparency u (updPriority u
      (updCategories u (updUrl u (updStatus u (updDescription u (updLocation u (updEnd u
      (updStart u (updSummary u ve))))))))))))).updatePropertyWithValue "dtstamp"
      (.time now)).subs = ve.subs
  rw [subs_updateProp, updReminders_subs_none _ _ h, updAttendees_subs, updOrganizer_subs,
    updTransparency_subs, updPriority_subs, updCategories_subs, updUrl_subs, updStatus_subs,
    updDescription_subs, updLocation_subs, updEnd_subs, updStart_subs, updSummary_subs]

theorem applyEventUpdates_name (u : UpdateEventParams) (now : ICalTime)
    (ve : ICalComponent) : (applyEventUpdates u now ve).name = ve.name := by
  show ((updReminders u (updAttendees u (updOrganizer u (updTransparency u (updPriority u
      (updCategories u (updUrl u (updStatus u (updDescription u (updLocation u (updEnd u
      (updStart u (updSummary u ve))))))))))))).updatePropertyWithValue "dtstamp"
      (.time now)).name = ve.name
  rw [updateProp_name, updReminders_name, updAttendees_name, updOrganizer_name,
    updTransparency_name, updPriority_name, updCategories_name, updUrl_name, updStatus_name,
    updDescription_name, updLocation_name, updEnd_name, updStart_name, updSummary_name]

theorem find?_cons_pos {α : Type} (p : α → Bool) (a : α) (l : List α)
    (h : p a = true) : (a :: l).find? p = some a :=
  List.find?_cons_of_pos l h

theorem find?_cons_neg {α : Type} (p : α → Bool) (a : α) (l : List α)
    (h : ¬ p a = true) : (a :: l).find? p = l.find? p :=
  List.find?_cons_of_neg l h

theorem find?_setFirstPropValue_self (ps : List ICalProp) (nm : String) (v : PropValue)
    (h : ps.any (fun q => q.name == nm) = true) :
    ((setFirstPropValue ps nm v).find? (fun q => q.name == nm)).bind (fun q => q.value) =
      some v := by
  induction ps with
  | nil => simp at h
  | cons q qs ih =>
    unfold setFirstPropValue
    by_cases hq : (q.name == nm) = true
    · rw [if_pos hq, find?_cons_pos (fun r : ICalProp => r.name == nm)
        ⟨q.name, q.params, some v⟩ qs hq]
      rfl
    · rw [if_neg hq, find?_cons_neg (fun r : ICalProp => r.name == nm) q
        (setFirstPropValue qs nm v) hq]
      apply ih
      simpa [hq] using h

/-- After `updatePropertyWithValue nm v`, the first value of `nm` is `v`. -/
theorem getFirstPropValue_updateProp_self (c : ICalComponent) (nm : String) (v : PropValue) :
    (c.updatePropertyWithValue nm v).getFirstPropertyValue nm = some v := by
  unfold ICalComponent.updatePropertyWithValue ICalComponent.getFirstPropertyValue
    ICalComponent.getFirstProp? ICalComponent.addProperty ICalComponent.hasProp
  split
  · simp only [ICalComponent.props_mk]
    exact find?_setFirstPropValue_self _ _ _ (by assumption)
  · rename_i hfalse
    simp only [ICalComponent.props_mk, List.find?_append]
    rw [find?_eq_none_of_any_ne (by simpa using hfalse)]
    simp

/-- The unconditional DTSTAMP rewrite at the end of the pipeline. -/
theorem applyEventUpdates_dtstamp (u : UpdateEventParams) (now : ICalTime)
    (ve : ICalComponent) :
    (applyEventUpdates u now ve).getFirstPropertyValue "dtstamp" = some (.time now) :=
  getFirstPropValue_updateProp_self _ _ _

theorem find_replaceFirstSub (ss : List ICalComponent) (nm : String) (c' : ICalComponent)
    (hname : (c'.name == nm) = true) (hex : (ss.find? (fun s => s.name == nm)).isSome = true) :
    (replaceFirstSub ss nm c').find? (fun s => s.name == nm) = some c' := by
  induction ss with
  | nil => simp at hex
  | cons a as ih =>
    unfold replaceFirstSub
    by_cases ha : (a.name == nm) = true
    · rw [if_pos ha, find?_cons_pos (fun s : ICalComponent => s.name == nm) _ _ hname]
    · rw [if_neg ha, find?_cons_neg (fun s : ICalComponent => s.name == nm) _ _ ha]
      apply ih
      rw [find?_cons_neg (fun s : ICalComponent => s.name == nm) _ _ ha] at hex
      exact hex

/-- C6: for every well-formed input document and every patch, the updated
document keeps the envelope properties, the first VEVENT becomes exactly the
pipeline result, every property name the patch does not set is value-identical
to the input (tolerating nothing but the DTSTAMP exception), the VALARM
subcomponents are untouched when the patch does not set reminders, and
DTSTAMP is rewritten to `now` on every call. -/
theorem C6_patch_frame (vcal : ICalComponent) (u : UpdateEventParams) (now : ICalTime)
    (ve out : ICalComponent)
    (hve : vcal.getFirstSubcomponent "vevent" = some ve)
    (hok : updateICalString vcal u now = .ok out) :
    out.props = vcal.props ∧
    out.getFirstSubcomponent "vevent" = some (applyEventUpdates u now ve) ∧
    (∀ nm : String, nm ∉ touchedNames u → nm ≠ "dtstamp" →
      (applyEventUpdates u now ve).getAllProperties nm = ve.getAllProperties nm) ∧
    (u.reminders = none → (applyEventUpdates u now ve).subs = ve.subs) ∧
    (applyEventUpdates u now ve).getFirstPropertyValue "dtstamp" = some (.time now) := by
  unfold updateICalString at hok
  rw [hve] at hok
  injection hok with hout
  subst hout
  refine ⟨rfl, ?_, ?_, ?_, ?_⟩
  · unfold ICalComponent.getFirstSubcomponent at hve ⊢
    simp only [ICalComponent.subs_mk]
    apply find_replaceFirstSub
    · rw [applyEventUpdates_name]
      have hp := List.find?_some hve
      exact hp
    · rw [hve]; rfl
  · intro nm h1 h2
    exact applyEventUpdates_frame u now ve nm h1 h2
  · intro h
    exact applyEventUpdates_subs u now ve h
  · exact applyEventUpdates_dtstamp u now ve

def c6Ve : ICalComponent :=
  .mk "vevent"
    [⟨"uid", [], some (.str "u1")⟩,
     ⟨"dtstamp", [], some (.time ⟨2024, 1, 1, 0, 0, 0, false⟩)⟩,
     ⟨"summary", [], some (.str "Old")⟩,
     ⟨"dtstart", [], some (.time ⟨2024, 1, 2, 9, 0, 0, false⟩)⟩]
    [.mk "valarm" [⟨"action", [], some (.str "DISPLAY")⟩] []]

def c6Vcal : ICalComponent :=
  .mk "vcalendar"
    [⟨"version", [], some (.str "2.0")⟩, ⟨"method", [], some (.str "REQUEST")⟩]
    [c6Ve]

def c6U : UpdateEventParams :=
  { summary := some "New", start := none, «end» := none, allDay := none
    location := none, description := none, attendees := none, organizer := none
    status := none, url := none, categories := none, priority := none
    transparency := none, reminders := none }

def c6Now : ICalTime := ⟨2024, 2, 1, 12, 0, 0, false⟩

def c6Out : ICalComponent :=
  .mk c6Vcal.name c6Vcal.props
    (replaceFirstSub c6Vcal.subs "vevent" (applyEventUpdates c6U c6Now c6Ve))

theorem C6_patch_frame_witness :
    c6Vcal.getFirstSubcomponent "vevent" = some c6Ve ∧
    updateICalString c6Vcal c6U c6Now = .ok c6Out ∧
    (c6Out.props = c6Vcal.props ∧
     c6Out.getFirstSubcomponent "vevent" = some (applyEventUpdates c6U c6Now c6Ve) ∧
     (∀ nm : String, nm ∉ touchedNames c6U → nm ≠ "dtstamp" →
       (applyEventUpdates c6U c6Now c6Ve).getAllProperties nm = c6Ve.getAllProperties nm) ∧
     (c6U.reminders = none → (applyEventUpdates c6U c6Now c6Ve).subs = c6Ve.subs) ∧
     (applyEventUpdates c6U c6Now c6Ve).getFirstPropertyValue "dtstamp" =
       some (.time c6Now)) :=
  ⟨rfl, rfl, C6_patch_frame c6Vcal c6U c6Now c6Ve c6Out rfl rfl⟩

/-- C8: the update surface never touches UID — the updated first VEVENT
carries exactly the input's UID properties — and at creation the produced
document's VEVENT carries the generated uid, which is also returned. -/
theorem C8_uid_immutable :
    (∀ (vcal : ICalComponent) (u : UpdateEventParams) (now : ICalTime) (ve out : ICalComponent),
      vcal.getFirstSubcomponent "vevent" = some ve →
      updateICalString vcal u now = .ok out →
      out.getFirstSubcomponent "vevent" = some (applyEventUpdates u now ve) ∧
      (applyEventUpdates u now ve).getAllProperties "uid" = ve.getAllProperties "uid") ∧
    (∀ (p : CreateEventParams) (uid : String) (now : ICalTime),
      (createICalString p uid now).2 = uid ∧
      ((createICalString p uid now).1.getFirstSubcomponent "vevent").map
        (fun ve => ve.getFirstPropertyValue "uid") = some (some (.str uid))) := by
  constructor
  · intro vcal u now ve out hve hok
    obtain ⟨_, hsub, hframe, _, _⟩ := C6_patch_frame vcal u now ve out hve hok
    exact ⟨hsub, hframe "uid" (uid_not_in_touched u) (by decide)⟩
  · intro p uid now
    refine ⟨rfl, ?_⟩
    rw [createICalString_eq, createVevent_eq]
    rfl

/-! ### C5: the allDay-only flip -/

theorem find?_eq_head_filter {α : Type} (p : α → Bool) (l : List α) :
    l.find? p = (l.filter p).head? := by
  induction l with
  | nil => rfl
  | cons a as ih =>
    cases h : p a
    · rw [find?_cons_neg p a as (by simp [h]), ih, List.filter_cons, if_neg (by simp [h])]
    · rw [find?_cons_pos p a as h, List.filter_cons, if_pos h]
      rfl

theorem getFirstPropValue_eq_of_getAllProps_eq (c₁ c₂ : ICalComponent) (nm : String)
    (h : c₁.getAllProperties nm = c₂.getAllProperties nm) :
    c₁.getFirstPropertyValue nm = c₂.getFirstPropertyValue nm := by
  unfold ICalComponent.getFirstPropertyValue ICalComponent.getFirstProp?
  unfold ICalComponent.getAllProperties at h
  rw [find?_eq_head_filter, find?_eq_head_filter, h]

theorem find?_mapFirstPropValue_self (ps : List ICalProp) (nm : String)
    (f : PropValue → PropValue) :
    ((mapFirstPropValue ps nm f).find? (fun q => q.name == nm)).bind (fun q => q.value) =
      (((ps.find? (fun q => q.name == nm)).bind (fun q => q.value)).map f) := by
  induction ps with
  | nil => rfl
  | cons q qs ih =>
    unfold mapFirstPropValue
    by_cases hq : (q.name == nm) = true
    · rw [if_pos hq,
        find?_cons_pos (fun r : ICalProp => r.name == nm) ⟨q.name, q.params, q.value.map f⟩ qs hq,
        find?_cons_pos (fun r : ICalProp => r.name == nm) q qs hq]
      rfl
    · rw [if_neg hq,
        find?_cons_neg (fun r : ICalProp => r.name == nm) q (mapFirstPropValue qs nm f) hq,
        find?_cons_neg (fun r : ICalProp => r.name == nm) q qs hq]
      exact ih

def c5Ve : ICalComponent :=
  .mk "vevent"
    [⟨"uid", [], some (.str "u5")⟩,
     ⟨"dtstamp", [], some (.time ⟨2024, 1, 1, 0, 0, 0, false⟩)⟩,
     ⟨"summary", [], some (.str "S")⟩,
     ⟨"dtstart", [], some (.time ⟨2024, 3, 1, 9, 0, 0, false⟩)⟩,
     ⟨"dtend", [], some (.time ⟨2024, 3, 1, 10, 0, 0, false⟩)⟩]
    []

def c5U : UpdateEventParams :=
  { summary := none, start := none, «end» := none, allDay := some true
    location := none, description := none, attendees := none, organizer := none
    status := none, url := none, categories := none, priority := none
    transparency := none, reminders := none }

def c5Now : ICalTime := ⟨2024, 3, 2, 8, 0, 0, false⟩

/-- The in-place branch of the start-time block: when the patch has `allDay`
but no `start`, the first DTSTART value has its flag set in place. -/
theorem updStart_allday_flip (u : UpdateEventParams) (ve : ICalComponent) (b : Bool)
    (t : ICalTime) (hs : u.start = none) (ha : u.allDay = some b)
    (ht : ve.getFirstPropertyValue "dtstart" = some (.time t)) :
    (updStart u ve).getFirstPropertyValue "dtstart" = some (.time (t.setIsDate b)) := by
  obtain ⟨su, st, en, ad, lo, de, at', or', sta, ur, ca, pr, tr, re⟩ := u
  replace hs : st = none := hs
  replace ha : ad = some b := ha
  subst hs; subst ha
  simp only [updStart]
  cases hp : ve.getFirstProp? "dtstart" with
  | none =>
    unfold ICalComponent.getFirstPropertyValue at ht
    rw [hp] at ht
    simp at ht
  | some q =>
    show (ICalComponent.mk ve.name
        (mapFirstPropValue ve.props "dtstart" (fun val =>
          match val with
          | .time t => .time (t.setIsDate b)
          | w => w)) ve.subs).getFirstPropertyValue "dtstart" = some (.time (t.setIsDate b))
    unfold ICalComponent.getFirstPropertyValue ICalComponent.getFirstProp? at ht ⊢
    simp only [ICalComponent.props_mk]
    rw [find?_mapFirstPropValue_self, ht]
    rfl

/-- C5 (amended): when the patch has `allDay` and neither `start` nor `end`,
the pipeline flips the granularity flag of DTSTART only — the calendar date is
preserved, the clock is preserved when switching back to date-time — while the
DTEND properties are left exactly as in the input (the source's
else-branch at lines 725-736 touches only `dtstart`; the `dtend` block at
lines 739-745 runs only when `updates.end` is present). -/
theorem C5_allday_flips_dtstart_only (u : UpdateEventParams) (now : ICalTime)
    (ve : ICalComponent) (b : Bool) (t : ICalTime)
    (hs : u.start = none) (ha : u.allDay = some b) (he : u.«end» = none)
    (ht : ve.getFirstPropertyValue "dtstart" = some (.time t)) :
    (applyEventUpdates u now ve).getFirstPropertyValue "dtstart" =
      some (.time (t.setIsDate b)) ∧
    (t.setIsDate b).year = t.year ∧ (t.setIsDate b).month = t.month ∧
    (t.setIsDate b).day = t.day ∧ (t.setIsDate b).isDate = b ∧
    (b = false → t.setIsDate b = { t with isDate := false }) ∧
    (applyEventUpdates u now ve).getAllProperties "dtend" = ve.getAllProperties "dtend" := by
  have h1 : (updSummary u ve).getFirstPropertyValue "dtstart" = some (.time t) := by
    rw [getFirstPropValue_eq_of_getAllProps_eq _ ve _
      (updSummary_frame u ve _ (Or.inr (by decide)))]
    exact ht
  have hflip := updStart_allday_flip u (updSummary u ve) b t hs ha h1
  have h2 : (applyEventUpdates u now ve).getFirstPropertyValue "dtstart" =
      (updStart u (updSummary u ve)).getFirstPropertyValue "dtstart" := by
    apply getFirstPropValue_eq_of_getAllProps_eq
    show ((updReminders u (updAttendees u (updOrganizer u (updTransparency u (updPriority u
        (updCategories u (updUrl u (updStatus u (updDescription u (updLocation u (updEnd u
        (updStart u (updSummary u ve))))))))))))).updatePropertyWithValue "dtstamp"
        (.time now)).getAllProperties "dtstart" =
      (updStart u (updSummary u ve)).getAllProperties "dtstart"
    rw [getAllProps_updateProp_ne _ _ _ _ (by decide), updReminders_props,
      updAttendees_frame _ _ _ (Or.inr (by decide)),
      updOrganizer_frame _ _ _ (Or.inr (by decide)),
      updTransparency_frame _ _ _ (Or.inr (by decide)),
      updPriority_frame _ _ _ (Or.inr (by decide)),
      updCategories_frame _ _ _ (Or.inr (by decide)),
      updUrl_frame _ _ _ (Or.inr (by decide)),
      updStatus_frame _ _ _ (Or.inr (by decide)),
      updDescription_frame _ _ _ (Or.inr (by decide)),
      updLocation_frame _ _ _ (Or.inr (by decide)),
      updEnd_frame _ _ _ (Or.inr (by decide))]
  have hdtend : "dtend" ∉ touchedNames u := by
    intro hmem
    simp only [touchedNames, List.mem_append] at hmem
    rcases hmem with ((((((((((h | h) | h) | h) | h) | h) | h) | h) | h) | h) | h) | h <;>
      first
        | exact absurd (mem_ite_singleton h) (by decide)
        | (rw [he] at h; simp at h)
  refine ⟨h2.trans hflip, ?_, ?_, ?_, ?_, ?_,
    applyEventUpdates_frame u now ve "dtend" hdtend (by decide)⟩
  all_goals unfold ICalTime.setIsDate
  · cases b <;> rfl
  · cases b <;> rfl
  · cases b <;> rfl
  · cases b <;> rfl
  · intro hb; subst hb; rfl

/-- C5 counterexample: the claim says the DTEND token's flag is flipped too.
Here a patch with only `allDay := true` produces a document whose DTSTART
became date-only but whose DTEND kept `isDate = false` unchanged. -/
theorem C5_counterexample :
    c5U.allDay = some true ∧ c5U.start = none ∧ c5U.«end» = none ∧
    c5Ve.getFirstPropertyValue "dtend" = some (.time ⟨2024, 3, 1, 10, 0, 0, false⟩) ∧
    (applyEventUpdates c5U c5Now c5Ve).getFirstPropertyValue "dtstart" =
      some (.time ⟨2024, 3, 1, 0, 0, 0, true⟩) ∧
    (applyEventUpdates c5U c5Now c5Ve).getFirstPropertyValue "dtend" =
      some (.time ⟨2024, 3, 1, 10, 0, 0, false⟩) :=
  ⟨rfl, rfl, rfl, rfl, rfl, rfl⟩

theorem C5_allday_flips_dtstart_only_witness :
    c5U.start = none ∧ c5U.allDay = some true ∧ c5U.«end» = none ∧
    c5Ve.getFirstPropertyValue "dtstart" = some (.time ⟨2024, 3, 1, 9, 0, 0, false⟩) ∧
    ((applyEventUpdates c5U c5Now c5Ve).getFirstPropertyValue "dtstart" =
      some (.time (ICalTime.setIsDate ⟨2024, 3, 1, 9, 0, 0, false⟩ true)) ∧
     (ICalTime.setIsDate ⟨2024, 3, 1, 9, 0, 0, false⟩ true).year = 2024 ∧
     (ICalTime.setIsDate ⟨2024, 3, 1, 9, 0, 0, false⟩ true).month = 3 ∧
     (ICalTime.setIsDate ⟨2024, 3, 1, 9, 0, 0, false⟩ true).day = 1 ∧
     (ICalTime.setIsDate ⟨2024, 3, 1, 9, 0, 0, false⟩ true).isDate = true ∧
     (true = false → ICalTime.setIsDate ⟨2024, 3, 1, 9, 0, 0, false⟩ true =
       { (⟨2024, 3, 1, 9, 0, 0, false⟩ : ICalTime) with isDate := false }) ∧
     (applyEventUpdates c5U c5Now c5Ve).getAllProperties "dtend" =
       c5Ve.getAllProperties "dtend") :=
  ⟨rfl, rfl, rfl, rfl,
    C5_allday_flips_dtstart_only c5U c5Now c5Ve true ⟨2024, 3, 1, 9, 0, 0, false⟩
      rfl rfl rfl rfl⟩

theorem C8_uid_immutable_witness :
    c6Vcal.getFirstSubcomponent "vevent" = some c6Ve ∧
    updateICalString c6Vcal c6U c6Now = .ok c6Out ∧
    (c6Out.getFirstSubcomponent "vevent" = some (applyEventUpdates c6U c6Now c6Ve) ∧
     (applyEventUpdates c6U c6Now c6Ve).getAllProperties "uid" =
       c6Ve.getAllProperties "uid") ∧
    ((createICalString c3Params "uid-1" c6Now).2 = "uid-1" ∧
     ((createICalString c3Params "uid-1" c6Now).1.getFirstSubcomponent "vevent").map
       (fun ve => ve.getFirstPropertyValue "uid") = some (some (.str "uid-1"))) :=
  ⟨rfl, rfl, C8_uid_immutable.1 c6Vcal c6U c6Now c6Ve c6Out rfl rfl,
   C8_uid_immutable.2 c3Params "uid-1" c6Now⟩

/-- C9: failure policy.  `parseICalEvent` is total by type (it returns an
`Option`, never raises): the marker check returns `none`, a text-parse
failure returns `none`, and a missing VEVENT, missing or empty UID, or
missing DTSTART all return `none`; `updateICalString` on a document with no
VEVENT instead returns the hard error "No VEVENT found in iCal string". -/
theorem C9_failure_policy :
    (∀ (s : String) (d : Option ICalComponent) (url : String),
      (strIncludes s "BEGIN:VCALENDAR" = false ∨ strIncludes s "BEGIN:VEVENT" = false) →
      parseICalEvent s d url = none) ∧
    (∀ (s : String) (url : String), parseICalEvent s none url = none) ∧
    (∀ (vcal : ICalComponent) (url : String),
      vcal.getFirstSubcomponent "vevent" = none → parseICalEventComp vcal url = none) ∧
    (∀ (vcal ve : ICalComponent) (url : String),
      vcal.getFirstSubcomponent "vevent" = some ve →
      (ve.getFirstPropertyValue "uid" = none ∨
        ve.getFirstPropertyValue "uid" = some (.str "")) →
      parseICalEventComp vcal url = none) ∧
    (∀ (vcal ve : ICalComponent) (url uid : String),
      vcal.getFirstSubcomponent "vevent" = some ve →
      ve.getFirstPropertyValue "uid" = some (.str uid) → uid ≠ "" →
      ve.getFirstPropertyValue "dtstart" = none →
      parseICalEventComp vcal url = none) ∧
    (∀ (vcal : ICalComponent) (u : UpdateEventParams) (now : ICalTime),
      vcal.getFirstSubcomponent "vevent" = none →
      updateICalString vcal u now = .error "No VEVENT found in iCal string") := by
  refine ⟨?_, ?_, ?_, ?_, ?_, ?_⟩
  · intro s d url h
    unfold parseICalEvent
    rcases h with h | h <;> rw [h] <;> simp
  · intro s url
    unfold parseICalEvent
    split
    · rfl
    · rfl
  · intro vcal url h
    unfold parseICalEventComp
    rw [h]
  · intro vcal ve url hve h
    unfold parseICalEventComp
    split
    · rfl
    · rename_i vevent hveq
      rw [hve] at hveq
      injection hveq with hv
      subst hv
      split
      · rename_i uid hequid
        rcases h with h | h
        · rw [h] at hequid
          exact absurd hequid (by simp)
        · have h1 := hequid.symm.trans h
          injection h1 with h2
          injection h2 with h3
          subst h3
          rw [if_pos (by decide)]
      · rfl
  · intro vcal ve url uid hve huid hne hds
    unfold parseICalEventComp
    split
    · rfl
    · rename_i vevent hveq
      rw [hve] at hveq
      injection hveq with hv
      subst hv
      split
      · rename_i uid' hequid
        have h1 := hequid.symm.trans huid
        injection h1 with h2
        injection h2 with h3
        subst h3
        rw [if_neg (by simp [hne])]
        split
        · rename_i st heqst
          rw [hds] at heqst
          exact absurd heqst (by simp)
        · rfl
      · rfl
  · intro vcal u now h
    unfold updateICalString
    rw [h]

theorem C9_failure_policy_witness :
    parseICalEvent "no markers here" none "u" = none ∧
    parseICalEvent "BEGIN:VCALENDAR BEGIN:VEVENT" none "u" = none ∧
    parseICalEventComp (.mk "vcalendar" [] []) "u" = none ∧
    parseICalEventComp (.mk "vcalendar" [] [.mk "vevent" [] []]) "u" = none ∧
    parseICalEventComp
      (.mk "vcalendar" [] [.mk "vevent" [⟨"uid", [], some (.str "u9")⟩] []]) "u" = none ∧
    updateICalString (.mk "vcalendar" [] []) c6U c6Now =
      .error "No VEVENT found in iCal string" :=
  ⟨C9_failure_policy.1 "no markers here" none "u" (Or.inl rfl),
   C9_failure_policy.2.1 "BEGIN:VCALENDAR BEGIN:VEVENT" "u",
   C9_failure_policy.2.2.1 (.mk "vcalendar" [] []) "u" rfl,
   C9_failure_policy.2.2.2.1 (.mk "vcalendar" [] [.mk "vevent" [] []])
     (.mk "vevent" [] []) "u" rfl (Or.inl rfl),
   C9_failure_policy.2.2.2.2.1
     (.mk "vcalendar" [] [.mk "vevent" [⟨"uid", [], some (.str "u9")⟩] []])
     (.mk "vevent" [⟨"uid", [], some (.str "u9")⟩] []) "u" "u9" rfl rfl
     (by decide) rfl,
   C9_failure_policy.2.2.2.2.2 (.mk "vcalendar" [] []) c6U c6Now rfl⟩

/-! ### C2 / C10: reminder triggers -/

/-- The TRIGGER value of every VALARM block of a component, in order. -/
def valarmTriggers (c : ICalComponent) : List (Option PropValue) :=
  (c.getAllSubcomponents "valarm").map (fun a => a.getFirstPropertyValue "trigger")

theorem mkValarm_trigger (s : String) (r : ReminderInput) :
    (mkValarm s r).getFirstPropertyValue "trigger" = some (.dur (reminderToDuration r)) := by
  unfold mkValarm
  split <;> rfl

theorem triggers_of_map_mkValarm (s : String) (rs : List ReminderInput) :
    ((rs.map (mkValarm s)).filter (fun c => c.name == "valarm")).map
      (fun a => a.getFirstPropertyValue "trigger") =
      rs.map (fun r => some (.dur (reminderToDuration r))) := by
  rw [List.filter_eq_self.mpr]
  · rw [List.map_map]
    exact List.map_congr_left (fun r _ => mkValarm_trigger s r)
  · intro a ha
    obtain ⟨r, _, rfl⟩ := List.mem_map.mp ha
    simp [mkValarm_name]

theorem valarmTriggers_congr_subs (c d : ICalComponent) (h : c.subs = d.subs) :
    valarmTriggers c = valarmTriggers d := by
  unfold valarmTriggers ICalComponent.getAllSubcomponents
  rw [h]

theorem valarmTriggers_foldl (rs : List ReminderInput) (c : ICalComponent) (s : String) :
    valarmTriggers (rs.foldl (fun acc r => acc.addSubcomponent (mkValarm s r)) c) =
      valarmTriggers c ++ rs.map (fun r => some (.dur (reminderToDuration r))) := by
  rw [foldl_addSubcomponent (fun r => mkValarm s r) rs c]
  unfold valarmTriggers ICalComponent.getAllSubcomponents
  simp only [ICalComponent.subs_mk, List.filter_append, List.map_append]
  rw [triggers_of_map_mkValarm]

theorem valarmTriggers_removeValarms (v : ICalComponent) :
    valarmTriggers (v.removeSubcomponentsNamed "valarm") = [] := by
  unfold valarmTriggers ICalComponent.getAllSubcomponents ICalComponent.removeSubcomponentsNamed
  simp only [ICalComponent.subs_mk]
  have hnil : ∀ l : List ICalComponent,
      (l.filter (fun s => !(s.name == "valarm"))).filter (fun s => s.name == "valarm") = [] := by
    intro l
    induction l with
    | nil => rfl
    | cons a as ih =>
      by_cases h : (a.name == "valarm") = true <;> simp [List.filter_cons, h, ih]
  rw [hnil, List.map_nil]

theorem valarmTriggers_updReminders (u : UpdateEventParams) (v : ICalComponent)
    (rs : List ReminderInput) (h : u.reminders = some rs) :
    valarmTriggers (updReminders u v) =
      rs.map (fun r => some (.dur (reminderToDuration r))) := by
  obtain ⟨su, st, en, ad, lo, de, at', or', sta, ur, ca, pr, tr, re⟩ := u
  replace h : re = some rs := h
  subst h
  simp only [updReminders]
  rw [valarmTriggers_foldl, valarmTriggers_removeValarms, List.nil_append]

theorem valarmTriggers_applyEventUpdates (u : UpdateEventParams) (now : ICalTime)
    (ve : ICalComponent) (rs : List ReminderInput) (h : u.reminders = some rs) :
    valarmTriggers (applyEventUpdates u now ve) =
      rs.map (fun r => some (.dur (reminderToDuration r))) := by
  have h1 : valarmTriggers (applyEventUpdates u now ve) =
      valarmTriggers (updReminders u (updAttendees u (updOrganizer u (updTransparency u
        (updPriority u (updCategories u (updUrl u (updStatus u (updDescription u
        (updLocation u (updEnd u (updStart u (updSummary u ve))))))))))))) := by
    apply valarmTriggers_congr_subs
    show ((updReminders u (updAttendees u (updOrganizer u (updTransparency u (updPriority u
        (updCategories u (updUrl u (updStatus u (updDescription u (updLocation u (updEnd u
        (updStart u (updSummary u ve))))))))))))).updatePropertyWithValue "dtstamp"
        (.time now)).subs =
      (updReminders u (updAttendees u (updOrganizer u (updTransparency u (updPriority u
        (updCategories u (updUrl u (updStatus u (updDescription u (updLocation u (updEnd u
        (updStart u (updSummary u ve))))))))))))).subs
    rw [subs_updateProp]
  rw [h1, valarmTriggers_updReminders u _ rs h]

theorem valarmTriggers_createVevent (p : CreateEventParams) (uid : String) (now : ICalTime)
    (rs : List ReminderInput) (h : p.reminders = some rs) :
    valarmTriggers (createVevent p uid now) =
      rs.map (fun r => some (.dur (reminderToDuration r))) := by
  rw [createVevent_eq]
  unfold valarmTriggers ICalComponent.getAllSubcomponents
  simp only [ICalComponent.subs_mk]
  unfold segValarms
  rw [h]
  cases rs with
  | nil => rfl
  | cons r rs' =>
    show (List.filter (fun s => s.name == "valarm")
        (if (r :: rs').length > 0 then List.map (mkValarm p.summary) (r :: rs') else [])).map
        (fun a => a.getFirstPropertyValue "trigger") =
      List.map (fun r => some (PropValue.dur (reminderToDuration r))) (r :: rs')
    rw [if_pos (by simp)]
    exact triggers_of_map_mkValarm p.summary (r :: rs')

def c2Reminder : ReminderInput :=
  { minutes := some 10, hours := none, days := some 1, action := none }

def c2Now : ICalTime := ⟨2024, 5, 1, 8, 0, 0, false⟩

def c2Params : CreateEventParams :=
  { summary := "M", start := ⟨2024, 5, 1, 9, 0, 0⟩
    «end» := none, allDay := none, location := none, description := none
    recurrence := none, attendees := none, organizer := none, status := none
    url := none, categories := none, priority := none, transparency := none
    reminders := some [c2Reminder] }

def c2U : UpdateEventParams :=
  { summary := none, start := none, «end» := none, allDay := none
    location := none, description := none, attendees := none, organizer := none
    status := none, url := none, categories := none, priority := none
    transparency := none, reminders := some [c2Reminder] }

def c2Ve : ICalComponent :=
  .mk "vevent"
    [⟨"uid", [], some (.str "u2")⟩,
     ⟨"summary", [], some (.str "M")⟩,
     ⟨"dtstart", [], some (.time ⟨2024, 5, 1, 9, 0, 0, false⟩)⟩]
    []

/-- C2 counterexample: the claim says the minutes offset wins when several are
supplied.  Here a reminder carries both `minutes = 10` and `days = 1`; the
source tests `days` first (lines 507-509), so the serialized trigger is
`-P1D`, not `-PT10M`, and the created document's VALARM carries `-P1D`. -/
theorem C2_counterexample :
    c2Reminder.minutes = some 10 ∧ c2Reminder.days = some 1 ∧
    reminderToDuration c2Reminder = "-P1D" ∧
    reminderToDuration c2Reminder ≠ "-PT10M" ∧
    valarmTriggers (createVevent c2Params "u2" c2Now) = [some (.dur "-P1D")] :=
  ⟨rfl, rfl, rfl, by decide, rfl⟩

/-- C2 (amended): the offset fields are tried in the priority order days
first, then hours, then minutes (source lines 507-515), with `-PT15M` as the
default when none is (truthily) set; every VALARM produced by the create path
and by the update path carries exactly `reminderToDuration` of its reminder as
its TRIGGER. -/
theorem C2_reminder_priority :
    (∀ r : ReminderInput, truthyNat r.days = true →
      reminderToDuration r = "-P" ++ toString (r.days.getD 0) ++ "D") ∧
    (∀ r : ReminderInput, truthyNat r.days = false → truthyNat r.hours = true →
      reminderToDuration r = "-PT" ++ toString (r.hours.getD 0) ++ "H") ∧
    (∀ r : ReminderInput, truthyNat r.days = false → truthyNat r.hours = false →
      truthyNat r.minutes = true →
      reminderToDuration r = "-PT" ++ toString (r.minutes.getD 0) ++ "M") ∧
    (∀ r : ReminderInput, truthyNat r.days = false → truthyNat r.hours = false →
      truthyNat r.minutes = false → reminderToDuration r = "-PT15M") ∧
    (∀ (s : String) (r : ReminderInput),
      (mkValarm s r).getFirstPropertyValue "trigger" = some (.dur (reminderToDuration r))) ∧
    (∀ (p : CreateEventParams) (uid : String) (now : ICalTime) (rs : List ReminderInput),
      p.reminders = some rs →
      valarmTriggers (createVevent p uid now) =
        rs.map (fun r => some (.dur (reminderToDuration r)))) ∧
    (∀ (u : UpdateEventParams) (now : ICalTime) (ve : ICalComponent) (rs : List ReminderInput),
      u.reminders = some rs →
      valarmTriggers (applyEventUpdates u now ve) =
        rs.map (fun r => some (.dur (reminderToDuration r)))) := by
  refine ⟨?_, ?_, ?_, ?_, mkValarm_trigger, valarmTriggers_createVevent,
    valarmTriggers_applyEventUpdates⟩
  · intro r h
    unfold reminderToDuration
    rw [if_pos h]
  · intro r hd hh
    unfold reminderToDuration
    rw [if_neg (by simp [hd]), if_pos hh]
  · intro r hd hh hm
    unfold reminderToDuration
    rw [if_neg (by simp [hd]), if_neg (by simp [hh]), if_pos hm]
  · intro r hd hh hm
    unfold reminderToDuration
    rw [if_neg (by simp [hd]), if_neg (by simp [hh]), if_neg (by simp [hm])]

theorem C2_reminder_priority_witness :
    truthyNat c2Reminder.days = true ∧
    reminderToDuration c2Reminder = "-P" ++ toString (c2Reminder.days.getD 0) ++ "D" ∧
    c2Params.reminders = some [c2Reminder] ∧
    valarmTriggers (createVevent c2Params "u2" c2Now) =
      [c2Reminder].map (fun r => some (.dur (reminderToDuration r))) ∧
    valarmTriggers (applyEventUpdates c2U c2Now c2Ve) =
      [c2Reminder].map (fun r => some (.dur (reminderToDuration r))) :=
  ⟨by decide,
   C2_reminder_priority.1 c2Reminder (by decide),
   rfl,
   C2_reminder_priority.2.2.2.2.2.1 c2Params "u2" c2Now [c2Reminder] rfl,
   C2_reminder_priority.2.2.2.2.2.2 c2U c2Now c2Ve [c2Reminder] rfl⟩

def c10Params : CreateEventParams :=
  { summary := "Z", start := ⟨2024, 6, 1, 9, 0, 0⟩
    «end» := none, allDay := none, location := none, description := none
    recurrence := none, attendees := none, organizer := none, status := none
    url := none, categories := none, priority := none, transparency := none
    reminders := some [⟨some 0, none, none, none⟩] }

/-- C10: the offset selection in `reminderToDuration` tests JS truthiness, not
presence, so an offset field equal to 0 behaves exactly as an absent one: a
`{minutes: 0}` reminder serializes with the default `-PT15M` (also in the
VALARM of a created document), and `{days: 0, hours: 2}` uses the hours
value. -/
theorem C10_zero_offsets :
    (∀ r : ReminderInput, r.days = some 0 →
      reminderToDuration r = reminderToDuration { r with days := none }) ∧
    (∀ r : ReminderInput, r.hours = some 0 →
      reminderToDuration r = reminderToDuration { r with hours := none }) ∧
    (∀ r : ReminderInput, r.minutes = some 0 →
      reminderToDuration r = reminderToDuration { r with minutes := none }) ∧
    reminderToDuration ⟨some 0, none, none, none⟩ = "-PT15M" ∧
    reminderToDuration ⟨none, some 2, some 0, none⟩ = "-PT2H" ∧
    valarmTriggers (createVevent c10Params "u10" c2Now) = [some (.dur "-PT15M")] := by
  refine ⟨?_, ?_, ?_, rfl, rfl, rfl⟩
  · intro r h
    obtain ⟨m, ho, d, a⟩ := r
    replace h : d = some 0 := h
    subst h
    rfl
  · intro r h
    obtain ⟨m, ho, d, a⟩ := r
    replace h : ho = some 0 := h
    subst h
    unfold reminderToDuration
    rfl
  · intro r h
    obtain ⟨m, ho, d, a⟩ := r
    replace h : m = some 0 := h
    subst h
    unfold reminderToDuration
    rfl

theorem C10_zero_offsets_witness :
    (⟨some 7, none, some 0, none⟩ : ReminderInput).days = some 0 ∧
    reminderToDuration ⟨some 7, none, some 0, none⟩ =
      reminderToDuration { (⟨some 7, none, some 0, none⟩ : ReminderInput) with days := none } :=
  ⟨rfl, C10_zero_offsets.1 ⟨some 7, none, some 0, none⟩ rfl⟩

/-! ### C7: three-state patch semantics -/

theorem filter_removeFirstProp_self (ps : List ICalProp) (nm : String)
    (h : (ps.filter (fun q => q.name == nm)).length ≤ 1) :
    (removeFirstProp ps nm).filter (fun q => q.name == nm) = [] := by
  induction ps with
  | nil => rfl
  | cons p ps ih =>
    simp only [removeFirstProp]
    by_cases hp : (p.name == nm) = true
    · rw [if_pos hp]
      rw [List.filter_cons, if_pos hp] at h
      have h0 : (ps.filter (fun q => q.name == nm)).length + 1 ≤ 1 := by simpa using h
      have h1 : (ps.filter (fun q => q.name == nm)).length = 0 :=
        Nat.le_zero.mp (Nat.le_of_succ_le_succ h0)
      exact List.length_eq_zero.mp h1
    · rw [if_neg hp, List.filter_cons, if_neg hp]
      rw [List.filter_cons, if_neg hp] at h
      exact ih h

theorem getAllProps_removeProp_self (v : ICalComponent) (nm : String)
    (h : (v.getAllProperties nm).length ≤ 1) :
    (v.removeProperty nm).getAllProperties nm = [] := by
  unfold ICalComponent.getAllProperties at h
  unfold ICalComponent.getAllProperties ICalComponent.removeProperty
  simp only [ICalComponent.props_mk]
  exact filter_removeFirstProp_self v.props nm h

theorem filter_setFirstPropValue_self_wf (ps : List ICalProp) (nm : String) (v : PropValue)
    (ha : ps.any (fun q => q.name == nm) = true)
    (h : (ps.filter (fun q => q.name == nm)).length ≤ 1) :
    ((setFirstPropValue ps nm v).filter (fun q => q.name == nm)).map (fun q => q.value) =
      [some v] := by
  induction ps with
  | nil => simp at ha
  | cons p ps ih =>
    simp only [setFirstPropValue]
    by_cases hp : (p.name == nm) = true
    · rw [if_pos hp, List.filter_cons,
        if_pos (show ((⟨p.name, p.params, some v⟩ : ICalProp).name == nm) = true from hp)]
      rw [List.filter_cons, if_pos hp] at h
      have h0 : (ps.filter (fun q => q.name == nm)).length + 1 ≤ 1 := by simpa using h
      have h1 : (ps.filter (fun q => q.name == nm)).length = 0 :=
        Nat.le_zero.mp (Nat.le_of_succ_le_succ h0)
      rw [List.length_eq_zero.mp h1]
      rfl
    · rw [if_neg hp, List.filter_cons, if_neg hp]
      apply ih
      · simpa [hp] using ha
      · rw [List.filter_cons, if_neg hp] at h
        exact h

theorem getAllProps_updateProp_self_wf (c : ICalComponent) (nm : String) (v : PropValue)
    (h : (c.getAllProperties nm).length ≤ 1) :
    ((c.updatePropertyWithValue nm v).getAllProperties nm).map (fun q => q.value) =
      [some v] := by
  unfold ICalComponent.updatePropertyWithValue ICalComponent.addProperty ICalComponent.hasProp
  unfold ICalComponent.getAllProperties at h ⊢
  split
  · simp only [ICalComponent.props_mk]
    exact filter_setFirstPropValue_self_wf c.props nm v (by assumption) h
  · rename_i hfalse
    simp only [ICalComponent.props_mk, List.filter_append]
    rw [filter_eq_nil_of_any_ne (by simpa using hfalse)]
    simp

theorem filter_not_self (ps : List ICalProp) (nm : String) :
    (ps.filter (fun q => !(q.name == nm))).filter (fun q => q.name == nm) = [] := by
  induction ps with
  | nil => rfl
  | cons p ps ih =>
    by_cases hp : (p.name == nm) = true <;> simp [List.filter_cons, hp, ih]

theorem updAttendees_replaces (u : UpdateEventParams) (v : ICalComponent)
    (atts : List AttendeeInput) (h : u.attendees = some atts) :
    (updAttendees u v).getAllProperties "attendee" = atts.map mkAttendeeProp := by
  obtain ⟨su, st, en, ad, lo, de, at', or', sta, ur, ca, pr, tr, re⟩ := u
  replace h : at' = some atts := h
  subst h
  show (atts.foldl (fun acc a => acc.addProperty (mkAttendeeProp a))
      (v.removeAllProperties "attendee")).getAllProperties "attendee" =
    atts.map mkAttendeeProp
  rw [foldl_addProperty mkAttendeeProp atts (v.removeAllProperties "attendee")]
  unfold ICalComponent.getAllProperties ICalComponent.removeAllProperties
  simp only [ICalComponent.props_mk, List.filter_append]
  rw [filter_not_self, List.nil_append, List.filter_eq_self.mpr]
  intro a ha
  obtain ⟨x, _, rfl⟩ := List.mem_map.mp ha
  simp [mkAttendeeProp_name]

/-- C7: the three-state patch semantics of the scalar string fields
(LOCATION, DESCRIPTION, STATUS, URL, TRANSP) — an explicit empty string
removes the property, a non-empty value replaces it (uppercased for STATUS
and TRANSP), an absent field leaves the component untouched — and of the
array fields: an empty `categories` removes CATEGORIES, a non-empty one
replaces it with the comma-joined value; `attendees` always becomes exactly
the patch's list; `reminders` always becomes exactly the patch's VALARM
list.  The removal/replacement conjuncts assume the input carries at most
one property of that name (the source removes and rewrites only the first
occurrence). -/
theorem C7_three_state :
    (∀ (u : UpdateEventParams) (v : ICalComponent),
      u.location = some "" → (v.getAllProperties "location").length ≤ 1 →
      (updLocation u v).getAllProperties "location" = []) ∧
    (∀ (u : UpdateEventParams) (v : ICalComponent) (s : String),
      u.location = some s → s ≠ "" → (v.getAllProperties "location").length ≤ 1 →
      ((updLocation u v).getAllProperties "location").map (fun q => q.value) =
        [some (.str s)]) ∧
    (∀ (u : UpdateEventParams) (v : ICalComponent),
      u.location = none → updLocation u v = v) ∧
    (∀ (u : UpdateEventParams) (v : ICalComponent),
      u.description = some "" → (v.getAllProperties "description").length ≤ 1 →
      (updDescription u v).getAllProperties "description" = []) ∧
    (∀ (u : UpdateEventParams) (v : ICalComponent) (s : String),
      u.description = some s → s ≠ "" → (v.getAllProperties "description").length ≤ 1 →
      ((updDescription u v).getAllProperties "description").map (fun q => q.value) =
        [some (.str s)]) ∧
    (∀ (u : UpdateEventParams) (v : ICalComponent),
      u.description = none → updDescription u v = v) ∧
    (∀ (u : UpdateEventParams) (v : ICalComponent),
      u.status = some "" → (v.getAllProperties "status").length ≤ 1 →
      (updStatus u v).getAllProperties "status" = []) ∧
    (∀ (u : UpdateEventParams) (v : ICalComponent) (s : String),
      u.status = some s → s ≠ "" → (v.getAllProperties "status").length ≤ 1 →
      ((updStatus u v).getAllProperties "status").map (fun q => q.value) =
        [some (.str (jsToUpper s))]) ∧
    (∀ (u : UpdateEventParams) (v : ICalComponent),
      u.status = none → updStatus u v = v) ∧
    (∀ (u : UpdateEventParams) (v : ICalComponent),
      u.url = some "" → (v.getAllProperties "url").length ≤ 1 →
      (updUrl u v).getAllProperties "url" = []) ∧
    (∀ (u : UpdateEventParams) (v : ICalComponent) (s : String),
      u.url = some s → s ≠ "" → (v.getAllProperties "url").length ≤ 1 →
      ((updUrl u v).getAllProperties "url").map (fun q => q.value) = [some (.str s)]) ∧
    (∀ (u : UpdateEventParams) (v : ICalComponent),
      u.url = none → updUrl u v = v) ∧
    (∀ (u : UpdateEventParams) (v : ICalComponent),
      u.transparency = some "" → (v.getAllProperties "transp").length ≤ 1 →
      (updTransparency u v).getAllProperties "transp" = []) ∧
    (∀ (u : UpdateEventParams) (v : ICalComponent) (s : String),
      u.transparency = some s → s ≠ "" → (v.getAllProperties "transp").length ≤ 1 →
      ((updTransparency u v).getAllProperties "transp").map (fun q => q.value) =
        [some (.str (jsToUpper s))]) ∧
    (∀ (u : UpdateEventParams) (v : ICalComponent),
      u.transparency = none → updTransparency u v = v) ∧
    (∀ (u : UpdateEventParams) (v : ICalComponent),
      u.categories = some [] → (v.getAllProperties "categories").length ≤ 1 →
      (updCategories u v).getAllProperties "categories" = []) ∧
    (∀ (u : UpdateEventParams) (v : ICalComponent) (cats : List String),
      u.categories = some cats → cats ≠ [] →
      (v.getAllProperties "categories").length ≤ 1 →
      ((updCategories u v).getAllProperties "categories").map (fun q => q.value) =
        [some (.str (String.intercalate "," cats))]) ∧
    (∀ (u : UpdateEventParams) (v : ICalComponent),
      u.categories = none → updCategories u v = v) ∧
    (∀ (u : UpdateEventParams) (v : ICalComponent) (atts : List AttendeeInput),
      u.attendees = some atts →
      (updAttendees u v).getAllProperties "attendee" = atts.map mkAttendeeProp) ∧
    (∀ (u : UpdateEventParams) (v : ICalComponent),
      u.attendees = none → updAttendees u v = v) ∧
    (∀ (u : UpdateEventParams) (v : ICalComponent) (rs : List ReminderInput),
      u.reminders = some rs →
      valarmTriggers (updReminders u v) =
        rs.map (fun r => some (.dur (reminderToDuration r))) ∧
      ((updReminders u v).getAllSubcomponents "valarm").length = rs.length) ∧
    (∀ (u : UpdateEventParams) (v : ICalComponent),
      u.reminders = none → updReminders u v = v) := by
  refine ⟨?_, ?_, ?_, ?_, ?_, ?_, ?_, ?_, ?_, ?_, ?_, ?_, ?_, ?_, ?_, ?_, ?_, ?_,
    updAttendees_replaces, ?_, ?_, ?_⟩
  · intro u v h hwf
    obtain ⟨su, st, en, ad, lo, de, at', or', sta, ur, ca, pr, tr, re⟩ := u
    replace h : lo = some "" := h
    subst h
    exact getAllProps_removeProp_self v "location" hwf
  · intro u v s h hs hwf
    obtain ⟨su, st, en, ad, lo, de, at', or', sta, ur, ca, pr, tr, re⟩ := u
    replace h : lo = some s := h
    subst h
    have hred : updLocation ⟨su, st, en, ad, some s, de, at', or', sta, ur, ca, pr, tr, re⟩ v =
        v.updatePropertyWithValue "location" (.str s) := by
      simp only [updLocation]
      rw [if_neg (by simp [hs])]
    rw [hred]
    exact getAllProps_updateProp_self_wf v "location" (.str s) hwf
  · intro u v h
    obtain ⟨su, st, en, ad, lo, de, at', or', sta, ur, ca, pr, tr, re⟩ := u
    replace h : lo = none := h
    subst h
    rfl
  · intro u v h hwf
    obtain ⟨su, st, en, ad, lo, de, at', or', sta, ur, ca, pr, tr, re⟩ := u
    replace h : de = some "" := h
    subst h
    exact getAllProps_removeProp_self v "description" hwf
  · intro u v s h hs hwf
    obtain ⟨su, st, en, ad, lo, de, at', or', sta, ur, ca, pr, tr, re⟩ := u
    replace h : de = some s := h
    subst h
    have hred : updDescription ⟨su, st, en, ad, lo, some s, at', or', sta, ur, ca, pr, tr, re⟩ v =
        v.updatePropertyWithValue "description" (.str s) := by
      simp only [updDescription]
      rw [if_neg (by simp [hs])]
    rw [hred]
    exact getAllProps_updateProp_self_wf v "description" (.str s) hwf
  · intro u v h
    obtain ⟨su, st, en, ad, lo, de, at', or', sta, ur, ca, pr, tr, re⟩ := u
    replace h : de = none := h
    subst h
    rfl
  · intro u v h hwf
    obtain ⟨su, st, en, ad, lo, de, at', or', sta, ur, ca, pr, tr, re⟩ := u
    replace h : sta = some "" := h
    subst h
    exact getAllProps_removeProp_self v "status" hwf
  · intro u v s h hs hwf
    obtain ⟨su, st, en, ad, lo, de, at', or', sta, ur, ca, pr, tr, re⟩ := u
    replace h : sta = some s := h
    subst h
    have hred : updStatus ⟨su, st, en, ad, lo, de, at', or', some s, ur, ca, pr, tr, re⟩ v =
        v.updatePropertyWithValue "status" (.str (jsToUpper s)) := by
      simp only [updStatus]
      rw [if_neg (by simp [hs])]
    rw [hred]
    exact getAllProps_updateProp_self_wf v "status" (.str (jsToUpper s)) hwf
  · intro u v h
    obtain ⟨su, st, en, ad, lo, de, at', or', sta, ur, ca, pr, tr, re⟩ := u
    replace h : sta = none := h
    subst h
    rfl
  · intro u v h hwf
    obtain ⟨su, st, en, ad, lo, de, at', or', sta, ur, ca, pr, tr, re⟩ := u
    replace h : ur = some "" := h
    subst h
    exact getAllProps_removeProp_self v "url" hwf
  · intro u v s h hs hwf
    obtain ⟨su, st, en, ad, lo, de, at', or', sta, ur, ca, pr, tr, re⟩ := u
    replace h : ur = some s := h
    subst h
    have hred : updUrl ⟨su, st, en, ad, lo, de, at', or', sta, some s, ca, pr, tr, re⟩ v =
        v.updatePropertyWithValue "url" (.str s) := by
      simp only [updUrl]
      rw [if_neg (by simp [hs])]
    rw [hred]
    exact getAllProps_updateProp_self_wf v "url" (.str s) hwf
  · intro u v h
    obtain ⟨su, st, en, ad, lo, de, at', or', sta, ur, ca, pr, tr, re⟩ := u
    replace h : ur = none := h
    subst h
    rfl
  · intro u v h hwf
    obtain ⟨su, st, en, ad, lo, de, at', or', sta, ur, ca, pr, tr, re⟩ := u
    replace h : tr = some "" := h
    subst h
    exact getAllProps_removeProp_self v "transp" hwf
  · intro u v s h hs hwf
    obtain ⟨su, st, en, ad, lo, de, at', or', sta, ur, ca, pr, tr, re⟩ := u
    replace h : tr = some s := h
    subst h
    have hred : updTransparency ⟨su, st, en, ad, lo, de, at', or', sta, ur, ca, pr, some s, re⟩ v =
        v.updatePropertyWithValue "transp" (.str (jsToUpper s)) := by
      simp only [updTransparency]
      rw [if_neg (by simp [hs])]
    rw [hred]
    exact getAllProps_updateProp_self_wf v "transp" (.str (jsToUpper s)) hwf
  · intro u v h
    obtain ⟨su, st, en, ad, lo, de, at', or', sta, ur, ca, pr, tr, re⟩ := u
    replace h : tr = none := h
    subst h
    rfl
  · intro u v h hwf
    obtain ⟨su, st, en, ad, lo, de, at', or', sta, ur, ca, pr, tr, re⟩ := u
    replace h : ca = some [] := h
    subst h
    exact getAllProps_removeProp_self v "categories" hwf
  · intro u v cats h hc hwf
    obtain ⟨su, st, en, ad, lo, de, at', or', sta, ur, ca, pr, tr, re⟩ := u
    replace h : ca = some cats := h
    subst h
    have hred : updCategories ⟨su, st, en, ad, lo, de, at', or', sta, ur, some cats, pr, tr, re⟩ v =
        (v.removeProperty "categories").updatePropertyWithValue "categories"
          (.str (String.intercalate "," cats)) := by
      simp only [updCategories]
      rw [if_pos (show cats.length > 0 by
        cases cats with
        | nil => exact absurd rfl hc
        | cons c cs => simp)]
    rw [hred]
    apply getAllProps_updateProp_self_wf
    rw [getAllProps_removeProp_self v "categories" hwf]
    simp
  · intro u v h
    obtain ⟨su, st, en, ad, lo, de, at', or', sta, ur, ca, pr, tr, re⟩ := u
    replace h : ca = none := h
    subst h
    rfl
  · intro u v h
    obtain ⟨su, st, en, ad, lo, de, at', or', sta, ur, ca, pr, tr, re⟩ := u
    replace h : at' = none := h
    subst h
    rfl
  · intro u v rs h
    refine ⟨valarmTriggers_updReminders u v rs h, ?_⟩
    have hlen := congrArg List.length (valarmTriggers_updReminders u v rs h)
    simpa [valarmTriggers] using hlen
  · intro u v h
    obtain ⟨su, st, en, ad, lo, de, at', or', sta, ur, ca, pr, tr, re⟩ := u
    replace h : re = none := h
    subst h
    rfl

def c7V : ICalComponent :=
  .mk "vevent"
    [⟨"uid", [], some (.str "u7")⟩,
     ⟨"summary", [], some (.str "S")⟩,
     ⟨"location", [], some (.str "Room 1")⟩,
     ⟨"categories", [], some (.str "a,b")⟩]
    []

def c7UEmpty : UpdateEventParams :=
  { summary := none, start := none, «end» := none, allDay := none
    location := some "", description := none, attendees := none, organizer := none
    status := none, url := none, categories := none, priority := none
    transparency := none, reminders := none }

def c7URepl : UpdateEventParams :=
  { summary := none, start := none, «end» := none, allDay := none
    location := some "Room 2", description := none, attendees := none, organizer := none
    status := none, url := none, categories := none, priority := none
    transparency := none, reminders := none }

def c7UNone : UpdateEventParams :=
  { summary := none, start := none, «end» := none, allDay := none
    location := none, description := none, attendees := none, organizer := none
    status := none, url := none, categories := none, priority := none
    transparency := none, reminders := none }

def c7UCats : UpdateEventParams :=
  { summary := none, start := none, «end» := none, allDay := none
    location := none, description := none, attendees := none, organizer := none
    status := none, url := none, categories := some [], priority := none
    transparency := none, reminders := none }

def c7Att : AttendeeInput :=
  { email := "a@example.com", name := some "Ann", rsvp := some true, role := none }

def c7UAtts : UpdateEventParams :=
  { summary := none, start := none, «end» := none, allDay := none
    location := none, description := none, attendees := some [c7Att], organizer := none
    status := none, url := none, categories := none, priority := none
    transparency := none, reminders := none }

theorem C7_three_state_witness :
    (updLocation c7UEmpty c7V).getAllProperties "location" = [] ∧
    ((updLocation c7URepl c7V).getAllProperties "location").map (fun q => q.value) =
      [some (.str "Room 2")] ∧
    updLocation c7UNone c7V = c7V ∧
    (updCategories c7UCats c7V).getAllProperties "categories" = [] ∧
    (updAttendees c7UAtts c7V).getAllProperties "attendee" = [c7Att].map mkAttendeeProp ∧
    updReminders c7UNone c7V = c7V := by
  obtain ⟨h1, h2, h3, _, _, _, _, _, _, _, _, _, _, _, _, h16, _, _, h19, _, _, h22⟩ :=
    C7_three_state
  exact ⟨h1 c7UEmpty c7V rfl (by decide),
    h2 c7URepl c7V "Room 2" rfl (by decide) (by decide),
    h3 c7UNone c7V rfl,
    h16 c7UCats c7V rfl (by decide),
    h19 c7UAtts c7V [c7Att] rfl,
    h22 c7UNone c7V rfl⟩

/-! ### C4: COUNT/UNTIL precedence in the serialized RRULE -/

/-- Tokens of the textual RRULE emission. -/
inductive RRuleToken where
  | freqTok : String → RRuleToken
  | intervalTok : Nat → RRuleToken
  | countTok : Nat → RRuleToken
  | untilTok : ICalTime → RRuleToken
  | bydayTok : List String → RRuleToken
  deriving Repr, DecidableEq

/-- Modelled from the spec: the textual RRULE emission performed on the
stored rule data (spec sections 3 and 4.1) — FREQ always, INTERVAL only when
greater than 1, exactly one of COUNT/UNTIL with UNTIL taking precedence when
both are stored, BYDAY when non-empty.  This serialization layer lives in
the external ical.js library, not in `src/`, so it is modelled from the
spec rather than translated from source. -/
def deriveRuleTokens (r : RecurData) : List RRuleToken :=
  [RRuleToken.freqTok r.freq]
    ++ (if r.interval > 1 then [RRuleToken.intervalTok r.interval] else [])
    ++ (match r.«until», r.count with
        | some u, _ => [RRuleToken.untilTok u]
        | none, some c => [RRuleToken.countTok c]
        | none, none => [])
    ++ (if r.byday ≠ [] then [RRuleToken.bydayTok r.byday] else [])

/-- Whether a token is the COUNT or the UNTIL token. -/
def isCountOrUntil : RRuleToken → Bool
  | .countTok _ => true
  | .untilTok _ => true
  | _ => false

theorem buildRRule_until (rp : RecurrenceParams) (u : JSDate) (hu : rp.«until» = some u) :
    (buildRRule rp).«until» = some (ICalTime.fromJSDate u) := by
  obtain ⟨f, i, c, ut, bd⟩ := rp
  replace hu : ut = some u := hu
  subst hu
  simp only [buildRRule]
  split
  · split <;> rfl
  · rfl

theorem buildRRule_count (rp : RecurrenceParams) (hc : truthyNat rp.count = true) :
    (buildRRule rp).count = some (rp.count.getD 0) := by
  obtain ⟨f, i, c, ut, bd⟩ := rp
  replace hc : truthyNat c = true := hc
  simp only [buildRRule]
  rw [if_pos hc]
  cases ut with
  | none =>
    split
    · split <;> rfl
    · rfl
  | some u =>
    split
    · split <;> rfl
    · rfl

/-- C4: when a recurrence request supplies both a (truthy) count and an
until instant, the source stores both on the rule (lines 645-650 are
independent ifs), the created document carries exactly that rule on its
RRULE property, and the serialized RRULE line carries exactly one of the
COUNT/UNTIL tokens — the UNTIL one (emission layer modelled from the
spec). -/
theorem C4_until_precedence (p : CreateEventParams) (uid : String) (now : ICalTime)
    (rp : RecurrenceParams) (u : JSDate)
    (hrec : p.recurrence = some rp)
    (hc : truthyNat rp.count = true) (hu : rp.«until» = some u) :
    (createVevent p uid now).getFirstPropertyValue "rrule" =
      some (.recur (buildRRule rp)) ∧
    (buildRRule rp).count = some (rp.count.getD 0) ∧
    (buildRRule rp).«until» = some (ICalTime.fromJSDate u) ∧
    (deriveRuleTokens (buildRRule rp)).filter isCountOrUntil =
      [RRuleToken.untilTok (ICalTime.fromJSDate u)] ∧
    ((deriveRuleTokens (buildRRule rp)).filter isCountOrUntil).length = 1 := by
  have huntil := buildRRule_until rp u hu
  have hcount := buildRRule_count rp hc
  have key : (deriveRuleTokens (buildRRule rp)).filter isCountOrUntil =
      [RRuleToken.untilTok (ICalTime.fromJSDate u)] := by
    unfold deriveRuleTokens
    rw [huntil, hcount]
    simp [List.filter_append, apply_ite (List.filter isCountOrUntil), isCountOrUntil]
  refine ⟨?_, hcount, huntil, key, by rw [key]; rfl⟩
  rw [createVevent_eq]
  unfold ICalComponent.getFirstPropertyValue
  rw [lookup_rrule, hrec]
  rfl

def c4Rp : RecurrenceParams :=
  { frequency := "weekly", interval := none, count := some 5
    «until» := some ⟨2025, 1, 1, 0, 0, 0⟩, byDay := none }

def c4Params : CreateEventParams :=
  { summary := "R", start := ⟨2024, 7, 1, 9, 0, 0⟩
    «end» := none, allDay := none, location := none, description := none
    recurrence := some c4Rp, attendees := none, organizer := none, status := none
    url := none, categories := none, priority := none, transparency := none
    reminders := none }

theorem C4_until_precedence_witness :
    c4Params.recurrence = some c4Rp ∧
    truthyNat c4Rp.count = true ∧
    c4Rp.«until» = some ⟨2025, 1, 1, 0, 0, 0⟩ ∧
    ((createVevent c4Params "u4" c2Now).getFirstPropertyValue "rrule" =
        some (.recur (buildRRule c4Rp)) ∧
      (buildRRule c4Rp).count = some (c4Rp.count.getD 0) ∧
      (buildRRule c4Rp).«until» = some (ICalTime.fromJSDate ⟨2025, 1, 1, 0, 0, 0⟩) ∧
      (deriveRuleTokens (buildRRule c4Rp)).filter isCountOrUntil =
        [RRuleToken.untilTok (ICalTime.fromJSDate ⟨2025, 1, 1, 0, 0, 0⟩)] ∧
      ((deriveRuleTokens (buildRRule c4Rp)).filter isCountOrUntil).length = 1) :=
  ⟨rfl, rfl, rfl,
   C4_until_precedence c4Params "u4" c2Now c4Rp ⟨2025, 1, 1, 0, 0, 0⟩ rfl rfl rfl⟩

end JmapCal
